import Mathlib

/-!
# The import kernel of math.js (`src/core/core.js`, `src/core/function/import.js`)

A shallow embedding of the namespace object `math`, of `_import`, `_importTransform`,
`_wrap` (import.js) and of `load` and the `config` listener (core.js).

Modelling decisions, all visible in the definitions below:

* JavaScript values are the closed universe `Value`: primitives, opaque objects and
  functions carrying exactly the own properties import.js inspects (`signature`,
  `signatures`, `transform`), and the two members of `math` that import.js itself
  dereferences on every call: the object `math.expression` and the method `math.emit`.
* `math[name]` is a property map; the contents of `math.expression.transform` and of
  `math.expression.mathWithTransform` are the maps held by the object created at
  core.js:95. They are reached through the entry `expression` of the namespace, as in
  the source, so an import that replaces that entry loses them.
* `math.emit('import', ...)` appends to the event log; listeners are not run.
* `typed` (the npm package typed-function) is a parameter of `importFactory` in the source
  and a parameter `TypedEngine` here.
* Numbers (`typed.js`, `bitOr.js`, `atanh.js`, `acoth.js`) are exact values `a / 2 ^ b`, NaN
  and the infinities; the string of a number is ECMAScript's Number::toString. The classes of
  `type`, the arithmetic that rounds and the functions of `Math` are parameters.
-/

namespace Mathjs

/-! ## Values -/

/-- Errors thrown by the code or by the language runtime. -/
inductive JsError where
  /-- An error made by `new Error(message)`. -/
  | error (message : String)
  /-- An error made by `new TypeError(message)` in the code. -/
  | typeError (message : String)
  /-- A TypeError raised by the runtime (property access on `undefined`, call of a
  non-function, strict-mode write to a primitive); its text depends on the engine. -/
  | runtimeTypeError
  /-- The RangeError of a call stack that overflows. -/
  | rangeError
  deriving DecidableEq, Repr

/-- The own property `transform` of an object or function, as far as import.js looks at it. -/
inductive TransformProp where
  /-- No such property, or `undefined` / `null`. -/
  | absent
  /-- A boolean, number or string. -/
  | primitive (truthy : Bool)
  /-- An object that is not callable. -/
  | object
  /-- A function, named by its identity. -/
  | function (id : Nat)
  deriving DecidableEq, Repr

/-- JavaScript values as import.js and core.js observe them. Objects and functions are
named by an identity `id`. -/
inductive Value where
  | undefined
  | null
  | bool (b : Bool)
  | num (n : Int)
  | str (s : String)
  /-- A non-callable object; `supported` tells whether it is a Unit, Complex, BigNumber,
  Fraction, Matrix or Array (the object cases of `isSupportedType`). -/
  | object (id : Nat) (supported : Bool) (transform : TransformProp)
  /-- A plain function; `signature` is its own property `signature` when that is a string. -/
  | func (id : Nat) (signature : Option String) (transform : TransformProp)
  /-- The function returned by `_wrap fn`. -/
  | wrapper (fn : Value) (transform : TransformProp)
  /-- A typed-function: a function whose property `signatures` maps signature strings to
  implementations (named by identity). -/
  | typed (name : String) (signatures : List (String × Nat)) (transform : TransformProp)
  /-- The object created at core.js:95, owner of `transform` and `mathWithTransform`. -/
  | expression
  /-- The method `emit` mixed into `math` by `emitter.mixin`. -/
  | emit
  deriving DecidableEq, Repr

namespace Value

/-- The test `typeof value === 'function'`. -/
def isFunction : Value → Bool
  | func _ _ _ => true
  | wrapper _ _ => true
  | typed _ _ _ => true
  | emit => true
  | _ => false

/-- JavaScript truthiness (`value && ...`). -/
def truthy : Value → Bool
  | undefined => false
  | null => false
  | bool b => b
  | num n => n != 0
  | str s => s != ""
  | _ => true

/-- The own property `transform` of a value; primitives have none. The object
`math.expression` holds the transform map there, which is not a function. -/
def transformProp : Value → TransformProp
  | object _ _ t => t
  | func _ _ t => t
  | wrapper _ t => t
  | typed _ _ t => t
  | expression => .object
  | _ => .absent

end Value

/-- Truthiness of the property, `if (fn.transform)`. -/
def TransformProp.truthy : TransformProp → Bool
  | .absent => false
  | .primitive b => b
  | .object => true
  | .function _ => true

/-- The test `typeof value.transform === 'function'`. -/
def TransformProp.isFunction : TransformProp → Bool
  | .function _ => true
  | _ => false

/-- import.js:374 `isTypedFunction` -/
def isTypedFunction : Value → Bool
  | .typed _ _ _ => true
  | _ => false

/-- import.js:378 `hasTypedFunctionSignature` -/
def hasTypedFunctionSignature : Value → Bool
  | .func _ (some _) _ => true
  | _ => false

/-- import.js:355 `isSupportedType` -/
def isSupportedType : Value → Bool
  | .undefined => false
  | .object _ supported _ => supported
  | .expression => false
  | _ => true

/-- import.js:395 `unsafe` -/
def unsafeNames : List String := ["expression", "type", "docs", "error", "json", "chain"]

/-- import.js:382 `allowedInExpressions` -/
def allowedInExpressions (name : String) : Bool := !unsafeNames.contains name

/-! ## Property maps -/

/-- The own properties of a JavaScript object, in insertion order. -/
abbrev Obj := List (String × Value)

namespace Obj

/-- Property read `o[k]`: `undefined` when there is no such property. -/
def get (o : Obj) (k : String) : Value := (o.lookup k).getD .undefined

/-- Property write `o[k] = v` to an own data property. The maps of the source inherit from
`Object.prototype`, whose accessor `__proto__` takes a write to that one name instead (it
stores nothing for a primitive and changes the prototype for an object): a write to
`__proto__` is outside this model, and the claims that read an entry back leave the name
out. -/
def set : Obj → String → Value → Obj
  | [], k, v => [(k, v)]
  | (k', v') :: rest, k, v => if k' = k then (k, v) :: rest else (k', v') :: set rest k v

/-- Property removal `delete o[k]`. -/
def delete (o : Obj) (k : String) : Obj := o.filter (fun p => p.1 != k)

end Obj

/-! ## The namespace -/

/-- The resolver handed to listeners of `import`. -/
inductive Resolver where
  /-- The closure `function resolver () { return value }` (import.js:129, 138). -/
  | returns (value : Value)
  /-- The resolver closure of `_importFactory` or `_importLegacyFactory` (import.js:282, 210)
  for the unit of that identity; calling it runs the unit (see `runResolver`). -/
  | unit (id : Nat)
  deriving DecidableEq, Repr

/-- Calling the resolver of a plain import. -/
def Resolver.call : Resolver → Option Value
  | .returns v => some v
  | .unit _ => none

/-- One call `math.emit(event, name, resolver, path)`. -/
structure Event where
  event : String
  name : String
  resolver : Resolver
  path : Option (List String)
  deriving DecidableEq, Repr

/-- The state of one math.js instance as far as importing goes. -/
structure Math where
  /-- The entries `math[name]`. -/
  ns : Obj
  /-- The properties of the object created as `math.expression.transform` -/
  transform : Obj
  /-- The properties of the object created as `math.expression.mathWithTransform` -/
  mathWithTransform : Obj
  /-- Calls of the emitter so far, oldest first -/
  events : List Event
  deriving DecidableEq, Repr

/-- How a call ended. -/
inductive Completion where
  | normal
  | throws (e : JsError)
  /-- Control went to a user function standing in the place of `math.emit`; what it does
  is not fixed by the source. -/
  | foreign
  deriving DecidableEq, Repr

/-- The state a call leaves behind and how it ended. -/
structure Outcome where
  math : Math
  completion : Completion
  deriving DecidableEq, Repr

/-- Import options (import.js:22-32); an option that is not given counts as `false`. -/
structure Options where
  override : Bool := false
  silent : Bool := false
  wrap : Bool := false
  deriving DecidableEq, Repr

/-- The dispatch-table builder `typed(...)`, the first parameter of `importFactory`.
`create name signatures` is `typed(name, signatures)`; `merge a b` is `typed(a, b)`. -/
structure TypedEngine where
  create : String → List (String × Nat) → Except JsError Value
  merge : Value → Value → Except JsError Value

/-- Where an indexed write or delete through `math.expression.<member>` lands. -/
inductive Target where
  /-- On the map the kernel created. -/
  | kernel
  /-- On an object outside the state. -/
  | foreign
  | fails (e : JsError)
  deriving DecidableEq, Repr

/-- Evaluating `math.expression.transform[name]` as the target of an assignment
(`forWrite`) or of `delete`. -/
def transformTarget (forWrite : Bool) (math : Math) : Target :=
  match math.ns.get "expression" with
  | .expression => .kernel
  | .undefined => .fails .runtimeTypeError
  | .null => .fails .runtimeTypeError
  | v =>
    match v.transformProp with
    | .absent => .fails .runtimeTypeError
    | .primitive _ => if forWrite then .fails .runtimeTypeError else .foreign
    | .object => .foreign
    | .function _ => .foreign

/-- Evaluating `math.expression.mathWithTransform[name]` as the target of an assignment.
No value of the universe other than the kernel's object has such a property. -/
def mathWithTransformTarget (math : Math) : Target :=
  match math.ns.get "expression" with
  | .expression => .kernel
  | _ => .fails .runtimeTypeError

/-- The statement `math.expression.transform[name] = v`. -/
def assignTransform (name : String) (v : Value) (math : Math) : Outcome :=
  match transformTarget true math with
  | .kernel => ⟨{ math with transform := math.transform.set name v }, .normal⟩
  | .foreign => ⟨math, .normal⟩
  | .fails e => ⟨math, .throws e⟩

/-- The statement `delete math.expression.transform[name]`. -/
def deleteTransform (name : String) (math : Math) : Outcome :=
  match transformTarget false math with
  | .kernel => ⟨{ math with transform := math.transform.delete name }, .normal⟩
  | .foreign => ⟨math, .normal⟩
  | .fails e => ⟨math, .throws e⟩

/-- The statement `math.expression.mathWithTransform[name] = v`. -/
def assignMathWithTransform (name : String) (v : Value) (math : Math) : Outcome :=
  match mathWithTransformTarget math with
  | .kernel => ⟨{ math with mathWithTransform := math.mathWithTransform.set name v }, .normal⟩
  | .foreign => ⟨math, .normal⟩
  | .fails e => ⟨math, .throws e⟩

/-- The call `math.emit('import', name, resolver, path)`. -/
def emitImport (name : String) (resolver : Resolver) (path : Option (List String))
    (math : Math) : Outcome :=
  match math.ns.get "emit" with
  | .emit => ⟨{ math with events := math.events ++ [⟨"import", name, resolver, path⟩] }, .normal⟩
  | v => if v.isFunction then ⟨math, .foreign⟩ else ⟨math, .throws .runtimeTypeError⟩

/-- import.js:149 `_importTransform`. In the first branch `value.transform` is a function;
it is stored as a plain function of that identity. -/
def _importTransform (name : String) (value : Value) (math : Math) : Outcome :=
  match value.truthy, value.transformProp with
  | true, .function id =>
    match assignTransform name (.func id none .absent) math with
    | ⟨math, .normal⟩ =>
      if allowedInExpressions name then
        assignMathWithTransform name (.func id none .absent) math
      else ⟨math, .normal⟩
    | out => out
  | _, _ =>
    match deleteTransform name math with
    | ⟨math, .normal⟩ =>
      if allowedInExpressions name then assignMathWithTransform name value math
      else ⟨math, .normal⟩
    | out => out

/-- import.js:180 `_wrap`: the wrapper takes over `fn.transform` when that is truthy. -/
def _wrap (fn : Value) : Value :=
  .wrapper fn (if fn.transformProp.truthy then fn.transformProp else .absent)

/-- import.js:106-116, the first two statements of `_import`: wrap a function when `wrap`
is set, then turn a plain function with a string `signature` into a typed-function. -/
def prepare (typed : TypedEngine) (name : String) (value : Value) (options : Options) :
    Except JsError Value :=
  let value := if options.wrap && value.isFunction then _wrap value else value
  match value with
  | .func id (some signature) _ => typed.create name [(signature, id)]
  | _ => .ok value

/-- import.js:127-132 and 136-141: store the value, maintain the transform maps, notify. -/
def install (name : String) (value : Value) (math : Math) : Outcome :=
  match _importTransform name value { math with ns := math.ns.set name value } with
  | ⟨math, .normal⟩ => emitImport name (.returns value) none math
  | out => out

/-- The signature map `value.signatures` of a typed-function. -/
def signaturesOf : Value → List (String × Nat)
  | .typed _ signatures _ => signatures
  | _ => []

/-- import.js:104 `_import` -/
def _import (typed : TypedEngine) (name : String) (value : Value) (options : Options)
    (math : Math) : Outcome :=
  match prepare typed name value options with
  | .error e => ⟨math, .throws e⟩
  | .ok value =>
    if isTypedFunction (math.ns.get name) && isTypedFunction value then
      match (if options.override then typed.create name (signaturesOf value)
             else typed.merge (math.ns.get name) value) with
      | .error e => ⟨math, .throws e⟩
      | .ok value => install name value math
    else if math.ns.get name == .undefined || options.override then
      install name value math
    else if !options.silent then
      ⟨math, .throws (.error ("Cannot import \"" ++ name ++ "\": already exists"))⟩
    else
      ⟨math, .normal⟩

/-- Modelled from the spec: the dispatch-table builder `typed` (the npm package
typed-function, no file of src/). Spec 4.3: `compile(name, signatureMap)` yields the table
of that name and signature map; `merge(tableA, tableB)` keeps the signatures present in only
one table and rejects a signature present in both (`DuplicateSignatureError`). -/
def specTyped : TypedEngine where
  create name signatures := .ok (.typed name signatures .absent)
  merge a b :=
    if (signaturesOf a).any (fun p => ((signaturesOf b).lookup p.1).isSome) then
      .error (.error "DuplicateSignatureError")
    else
      .ok (.typed (match a with | .typed n _ _ => n | _ => "") (signaturesOf a ++ signaturesOf b)
        .absent)

/-! ## Units, `load` and the `config` listener (core.js) -/

/-- Modelled from the spec: a modern-shape Unit `{ name, dependencies, create }` (spec,
section 3), the function returned by `factory(name, dependencies, create)` of utils/factory
(no file of src/). Calling the unit on a scope runs its creation body `create`; the unit is
immutable and keeps no instance of its own. `id` is the identity of the function object. -/
structure Factory where
  id : Nat
  fn : String
  dependencies : List String
  recreateOnConfigChange : Bool
  /-- The test `factory.lazy !== false`. -/
  lazy : Bool
  create : Math → Except JsError Value

/-- The argument of `load`, by the test of core.js:191-204 that it meets first.
A legacy unit `{ name, math, factory }` is named by the identity `id` of its object; its
creation body `factory` receives `load` and is represented by the units it loads, in order,
and by what it then returns or throws, given the namespace (when `math` is `true`) and the
loaded instances. A body that loads its own unit does not return in the source, where the
unit is cached only after its body has returned; such a unit has `id ∈ unitIdsAll loads`. -/
inductive Loadable where
  /-- A modern factory: `isFactory(factory)`. -/
  | factory (f : Factory)
  /-- An object whose first own property is a modern factory. -/
  | firstProperty (f : Factory)
  /-- A legacy factory: `isLegacyFactory(factory)` and neither of the above. -/
  | legacy (id : Nat) (name : Option String) (math : Bool) (loads : List Loadable)
      (factory : Option Math → List Value → Except JsError Value)
  /-- Any other object. -/
  | object

/-- One instance as `createCore` builds it: the namespace and the variables its closures
share. `invoked` records, by identity, every creation body that was started. -/
structure Core where
  math : Math
  /-- core.js:181 -/
  legacyFactories : List Nat
  /-- core.js:182 -/
  legacyInstances : List Value
  /-- core.js:228, as `Object.values(factories)` -/
  factories : List Factory
  invoked : List Nat

mutual
/-- core.js:191 `load` -/
def load : Loadable → Core → Except JsError Value × Core
  | .factory f, c => (f.create c.math, { c with invoked := c.invoked ++ [f.id] })
  | .firstProperty f, c => (f.create c.math, { c with invoked := c.invoked ++ [f.id] })
  | .object, c =>
    (.error (.error "Factory object with properties `type`, `name`, and `factory` expected"), c)
  | .legacy id _ math loads factory, c =>
    let index := c.legacyFactories.indexOf id
    if index = c.legacyFactories.length then
      -- doesn't yet exist: run the creation body
      match loadAll loads { c with invoked := c.invoked ++ [id] } with
      | (.error e, c) => (.error e, c)
      | (.ok instances, c) =>
        match factory (if math then some c.math else none) instances with
        | .error e => (.error e, c)
        | .ok inst =>
          (.ok inst, { c with legacyFactories := c.legacyFactories ++ [id]
                              legacyInstances := c.legacyInstances ++ [inst] })
    else
      -- already existing function, return the cached instance
      (.ok (c.legacyInstances.getD index .undefined), c)
/-- The calls of `load` a creation body makes, in order; the first that throws ends the body. -/
def loadAll : List Loadable → Core → Except JsError (List Value) × Core
  | [], c => (.ok [], c)
  | u :: us, c =>
    match load u c with
    | (.error e, c) => (.error e, c)
    | (.ok v, c) =>
      match loadAll us c with
      | (.error e, c) => (.error e, c)
      | (.ok vs, c) => (.ok (v :: vs), c)
end

mutual
/-- The identities of all units reachable from a unit through the loads of creation bodies. -/
def unitIds : Loadable → List Nat
  | .factory f => [f.id]
  | .firstProperty f => [f.id]
  | .object => []
  | .legacy id _ _ loads _ => id :: unitIdsAll loads
/-- The identities of all units reachable from a list of units. -/
def unitIdsAll : List Loadable → List Nat
  | [] => []
  | u :: us => unitIds u ++ unitIdsAll us
end

/-- core.js:234-242, the listener of `config`: every factory recorded in `factories` that is
flagged `recreateOnConfigChange` is imported again with `override: true`; `importAgain` is
`math['import']`. -/
def configListener (importAgain : Factory → Options → Core → Core) (c : Core) : Core :=
  c.factories.foldl
    (fun c f => if f.recreateOnConfigChange then importAgain f { override := true } c else c) c

/-- core.js:81 `createCore`: the instance it returns, before anything is imported. The
members are `on`, `off`, `once`, `emit` (emitter.mixin), `config`, `expression`, `type`,
`typed` and `import`; `mathWithTransform` starts with `config` (core.js:97); the caches of
`load` and `factories` start empty (core.js:181, 182, 228). -/
def createCore : Core where
  math :=
    { ns := [("on", .func 1 none .absent), ("off", .func 2 none .absent),
        ("once", .func 3 none .absent), ("emit", .emit), ("config", .func 4 none .absent),
        ("expression", .expression), ("type", .object 5 false .absent),
        ("typed", .func 6 none .absent), ("import", .func 7 none .absent)]
      transform := []
      mathWithTransform := [("config", .func 4 none .absent)]
      events := [] }
  legacyFactories := []
  legacyInstances := []
  factories := []
  invoked := []

/-- The fresh instance after `math.import({ add: typed('add', { number: f }) })`, where `f`
has identity 20. -/
def coreWithAdd : Math :=
  (_import specTyped "add" (.typed "add" [("number", 20)] .absent) {} createCore.math).math

/-- The kernel members that import.js dereferences are the ones `createCore` put there. -/
def Intact (math : Math) : Prop :=
  math.ns.get "expression" = .expression ∧ math.ns.get "emit" = .emit

instance (math : Math) : Decidable (Intact math) := by
  unfold Intact; infer_instance

/-- The state `_importTransform` leaves behind when the kernel members are intact. -/
def transformed (name : String) (value : Value) (math : Math) : Math :=
  match value.truthy, value.transformProp with
  | true, .function id =>
    { math with
      transform := math.transform.set name (.func id none .absent)
      mathWithTransform :=
        if allowedInExpressions name then
          math.mathWithTransform.set name (.func id none .absent)
        else math.mathWithTransform }
  | _, _ =>
    { math with
      transform := math.transform.delete name
      mathWithTransform :=
        if allowedInExpressions name then math.mathWithTransform.set name value
        else math.mathWithTransform }

/-- The state `install` leaves behind when the kernel members are intact. -/
def installed (name : String) (value : Value) (math : Math) : Math :=
  let math := transformed name value { math with ns := math.ns.set name value }
  { math with events := math.events ++ [⟨"import", name, .returns value, none⟩] }

/-- Every call of `_import` either installs and notifies exactly once, the notification
carrying the name and a resolver that returns the installed entry, or is skipped, or throws,
and in the last two cases leaves the instance as it was. -/
def NotifiesOnce (typed : TypedEngine) (name : String) (value : Value) (options : Options)
    (math : Math) : Prop :=
  let out := _import typed name value options math
  (out.completion = .normal ∧
      out.math.events
        = math.events ++ [⟨"import", name, .returns (out.math.ns.get name), none⟩]) ∨
    (out.completion = .normal ∧ out.math = math) ∨
    (∃ e, out.completion = .throws e ∧ out.math = math)

/-- What a call of `load` leaves untouched for a unit identity `i` it does not reach. -/
def Untouched (i : Nat) (c c' : Core) : Prop :=
  (i ∈ c'.legacyFactories ↔ i ∈ c.legacyFactories) ∧ c'.invoked.count i = c.invoked.count i

/-- What every call of `load` preserves. -/
def Extends (c c' : Core) : Prop :=
  (c.legacyFactories.length = c.legacyInstances.length →
    c'.legacyFactories.length = c'.legacyInstances.length) ∧
  (∃ rest, c'.invoked = c.invoked ++ rest) ∧ c'.math = c.math ∧ c'.factories = c.factories

/-! ## The wrapper call and the type registry -/

/-- Calling a function value with `this = math`. What the functions of the universe do when
called is given by `apply`, and `valueOf` is the method `valueOf` of the values. The wrapper
made by `_wrap` (import.js:181-188) passes on `arg && arg.valueOf()` for each of its
arguments and returns what the wrapped function returns. -/
def call (apply : Value → List Value → Except JsError Value) (valueOf : Value → Value) :
    Value → List Value → Except JsError Value
  | .wrapper fn _, args =>
    call apply valueOf fn (args.map fun arg => if arg.truthy then valueOf arg else arg)
  | v, args => apply v args

/-- One entry of `typed.types`: the name of the type and its test, a predicate of utils/is
named by its identifier. -/
structure TypeDescriptor where
  name : String
  test : String
  deriving DecidableEq, Repr

/-- The type registry of typed.js:308-348, `typed.types` as `createTyped` sets it. -/
def createTyped_types : List TypeDescriptor :=
  [⟨"number", "isNumber"⟩, ⟨"Complex", "isComplex"⟩, ⟨"BigNumber", "isBigNumber"⟩,
    ⟨"Fraction", "isFraction"⟩, ⟨"Unit", "isUnit"⟩, ⟨"string", "isString"⟩, ⟨"Chain", "isChain"⟩,
    ⟨"Array", "isArray"⟩, ⟨"Matrix", "isMatrix"⟩, ⟨"DenseMatrix", "isDenseMatrix"⟩,
    ⟨"SparseMatrix", "isSparseMatrix"⟩, ⟨"Range", "isRange"⟩, ⟨"Index", "isIndex"⟩,
    ⟨"boolean", "isBoolean"⟩, ⟨"ResultSet", "isResultSet"⟩, ⟨"Help", "isHelp"⟩,
    ⟨"function", "isFunction"⟩, ⟨"Date", "isDate"⟩, ⟨"RegExp", "isRegExp"⟩, ⟨"null", "isNull"⟩,
    ⟨"undefined", "isUndefined"⟩, ⟨"AccessorNode", "isAccessorNode"⟩,
    ⟨"ArrayNode", "isArrayNode"⟩, ⟨"AssignmentNode", "isAssignmentNode"⟩,
    ⟨"BlockNode", "isBlockNode"⟩, ⟨"ConditionalNode", "isConditionalNode"⟩,
    ⟨"ConstantNode", "isConstantNode"⟩, ⟨"FunctionNode", "isFunctionNode"⟩,
    ⟨"FunctionAssignmentNode", "isFunctionAssignmentNode"⟩, ⟨"IndexNode", "isIndexNode"⟩,
    ⟨"Node", "isNode"⟩, ⟨"ObjectNode", "isObjectNode"⟩, ⟨"OperatorNode", "isOperatorNode"⟩,
    ⟨"ParenthesisNode", "isParenthesisNode"⟩, ⟨"RangeNode", "isRangeNode"⟩,
    ⟨"SymbolNode", "isSymbolNode"⟩, ⟨"Object", "isObject"⟩]

/-- The type registry of typed.js:107-147, `typed.types` as `createTypedLegacy` sets it. -/
def createTypedLegacy_types : List TypeDescriptor :=
  [⟨"number", "isNumber"⟩, ⟨"Complex", "isComplex"⟩, ⟨"BigNumber", "isBigNumber"⟩,
    ⟨"Fraction", "isFraction"⟩, ⟨"Unit", "isUnit"⟩, ⟨"string", "isString"⟩, ⟨"Chain", "isChain"⟩,
    ⟨"Array", "isArray"⟩, ⟨"Matrix", "isMatrix"⟩, ⟨"DenseMatrix", "isDenseMatrix"⟩,
    ⟨"SparseMatrix", "isSparseMatrix"⟩, ⟨"Range", "isRange"⟩, ⟨"Index", "isIndex"⟩,
    ⟨"boolean", "isBoolean"⟩, ⟨"ResultSet", "isResultSet"⟩, ⟨"Help", "isHelp"⟩,
    ⟨"function", "isFunction"⟩, ⟨"Date", "isDate"⟩, ⟨"RegExp", "isRegExp"⟩, ⟨"null", "isNull"⟩,
    ⟨"undefined", "isUndefined"⟩, ⟨"AccessorNode", "isAccessorNode"⟩,
    ⟨"ArrayNode", "isArrayNode"⟩, ⟨"AssignmentNode", "isAssignmentNode"⟩,
    ⟨"BlockNode", "isBlockNode"⟩, ⟨"ConditionalNode", "isConditionalNode"⟩,
    ⟨"ConstantNode", "isConstantNode"⟩, ⟨"FunctionNode", "isFunctionNode"⟩,
    ⟨"FunctionAssignmentNode", "isFunctionAssignmentNode"⟩, ⟨"IndexNode", "isIndexNode"⟩,
    ⟨"Node", "isNode"⟩, ⟨"ObjectNode", "isObjectNode"⟩, ⟨"OperatorNode", "isOperatorNode"⟩,
    ⟨"ParenthesisNode", "isParenthesisNode"⟩, ⟨"RangeNode", "isRangeNode"⟩,
    ⟨"SymbolNode", "isSymbolNode"⟩, ⟨"Object", "isObject"⟩]

/-! ## Importing units: `mathImport`, `_importFactory`, `_importLegacyFactory` (import.js)

The helpers `lazy` and `traverse` (utils/object) and `initial`, `last`, `contains`
(utils/array) have no file under src/. A lazy property is kept apart from the resolved
properties of `Math` until it is read; reading it runs its resolver and stores the result. -/

/-- The pieces of a name between its dots, `name.split('.')`, on characters. -/
def splitDots : List Char → List (List Char)
  | [] => [[]]
  | c :: cs =>
    if c = '.' then [] :: splitDots cs
    else
      match splitDots cs with
      | [] => [[c]]
      | seg :: segs => (c :: seg) :: segs

/-- The segments `name.split('.')` of a dotted name. -/
def segments (name : String) : List String := (splitDots name.toList).map String.mk

/-- The test `fullName.indexOf('.') !== -1` (import.js:275). -/
def nameContainsPath (fullName : String) : Bool := fullName.toList.contains '.'

/-- import.js:276, the path of a full name: `initial(fullName.split('.'))` or `undefined`. -/
def pathOf (fullName : String) : Option (List String) :=
  if nameContainsPath fullName then some (segments fullName).dropLast else none

/-- import.js:277, the name of a full name: `last(fullName.split('.'))` or the full name. -/
def nameOf (fullName : String) : String :=
  if nameContainsPath fullName then (segments fullName).getLastD "" else fullName

/-- The objects a unit can be placed in. -/
inductive Space where
  /-- The namespace `math`. -/
  | root
  /-- The object `math.expression.transform`. -/
  | transform
  /-- The object `math.expression.mathWithTransform`. -/
  | mathWithTransform
  /-- Another object below `math`, named by its path. -/
  | other (path : List String)
  deriving DecidableEq, Repr

/-- Modelled from the spec: `traverse(math, path)` of utils/object (no file of src/), the
placement path of a unit (spec, sections 3 and 9): the object reached from `math` along the
path, missing objects being created on the way. The two maps below `expression` are the ones
`createCore` made. -/
def traverse : Option (List String) → Space
  | none => .root
  | some [] => .root
  | some ["expression", "transform"] => .transform
  | some ["expression", "mathWithTransform"] => .mathWithTransform
  | some path => .other path

/-- A legacy unit `{ name, path, lazy, math, factory }` as `_importLegacyFactory` reads it
(import.js:199-203); `id`, `math`, `loads` and `factory` are those of `Loadable.legacy`. -/
structure LegacyFactory where
  id : Nat
  /-- The property `name` when it is a string. -/
  name : Option String
  path : Option String
  /-- The test `factory.lazy !== false`. -/
  lazy : Bool
  math : Bool
  loads : List Loadable
  factory : Option Math → List Value → Except JsError Value

/-- The unit as `load` sees it. -/
def LegacyFactory.toLoadable (u : LegacyFactory) : Loadable :=
  .legacy u.id u.name u.math u.loads u.factory

/-- The closures `resolver` of import.js:282 and import.js:210, with what they capture. -/
inductive UnitResolver where
  | factory (f : Factory) (fullName : String) (existing : Value) (options : Options)
  | legacy (u : LegacyFactory) (existing : Value) (options : Options)

/-- What a lazy property computes when it is first read. -/
inductive Thunk where
  | resolver (r : UnitResolver)
  /-- The closure `() => namespace[name]` of import.js:331. -/
  | mirror (space : Space) (name : String)

/-- One instance with its lazy properties. `core.math` holds the resolved properties of
`math` and of the two maps below `expression`, `others` those of the other objects below
`math`, and `pending` the lazy properties that have not been read yet. -/
structure Env where
  core : Core
  others : List (List String × Obj)
  pending : List ((Space × String) × Thunk)

/-- The state an import leaves behind and how it ended. -/
structure EnvOutcome where
  env : Env
  completion : Completion

/-- Continue with `next` when the step before ended normally. -/
def EnvOutcome.andThen (out : EnvOutcome) (next : Env → EnvOutcome) : EnvOutcome :=
  match out.completion with
  | .normal => next out.env
  | _ => out

/-- Replace or add the entry of a key in an association list. -/
def setAssoc {κ α : Type} [DecidableEq κ] : List (κ × α) → κ → α → List (κ × α)
  | [], k, a => [(k, a)]
  | (k', a') :: rest, k, a =>
    if k' = k then (k, a) :: rest else (k', a') :: setAssoc rest k a

namespace Env

/-- The instance with another namespace state. -/
def setMath (env : Env) (math : Math) : Env :=
  { env with core := { env.core with math := math } }

/-- The resolved properties of an object. -/
def data (env : Env) : Space → Obj
  | .root => env.core.math.ns
  | .transform => env.core.math.transform
  | .mathWithTransform => env.core.math.mathWithTransform
  | .other path => (env.others.lookup path).getD []

/-- The instance with other resolved properties for an object. -/
def setData (env : Env) (space : Space) (o : Obj) : Env :=
  match space with
  | .root => env.setMath { env.core.math with ns := o }
  | .transform => env.setMath { env.core.math with transform := o }
  | .mathWithTransform => env.setMath { env.core.math with mathWithTransform := o }
  | .other path => { env with others := setAssoc env.others path o }

/-- The lazy property of that name, when it has not been read yet. -/
def thunk? (env : Env) (space : Space) (name : String) : Option Thunk :=
  env.pending.lookup (space, name)

/-- The tests `name in obj` and `obj.hasOwnProperty(name)`. -/
def has (env : Env) (space : Space) (name : String) : Bool :=
  ((env.data space).lookup name).isSome || (env.thunk? space name).isSome

/-- The instance without the lazy property of that name. -/
def unpend (env : Env) (space : Space) (name : String) : Env :=
  { env with pending := env.pending.filter fun p => p.1 != (space, name) }

/-- The statement `obj[name] = v`; a lazy property takes the value as its result. -/
def assign (env : Env) (space : Space) (name : String) (v : Value) : Env :=
  (env.unpend space name).setData space ((env.data space).set name v)

/-- The statement `delete obj[name]`. -/
def remove (env : Env) (space : Space) (name : String) : Env :=
  (env.unpend space name).setData space ((env.data space).delete name)

/-- Modelled from the spec: `lazy(obj, name, resolver)` of utils/object (no file of src/).
Spec 4.5: the value of a lazily installed name is computed on first property access and
cached thereafter; the property replaces what the object held under the name. -/
def lazy (env : Env) (space : Space) (name : String) (thunk : Thunk) : Env :=
  let env := env.remove space name
  { env with pending := setAssoc env.pending (space, name) thunk }

end Env

/-- import.js:298-321 and import.js:212-234, what both resolvers do with the instance of
the unit: reject an instance with a transform function, merge two typed-functions unless
`override` is set, and otherwise answer with the instance when nothing exists under the name
or `override` is set; on a conflict throw, or return `undefined` when `silent` is set. -/
def resolveInstance (typed : TypedEngine) (shownName : String) (existing : Value)
    (options : Options) (inst : Value) : Except JsError Value :=
  if inst.truthy && inst.transformProp.isFunction then
    .error (.error ("Transforms cannot be attached to factory functions. " ++
      "Please create a separate function for it with exports.path=\"expression.transform\""))
  else if isTypedFunction existing && isTypedFunction inst then
    if options.override then .ok inst else typed.merge existing inst
  else if existing == .undefined || options.override then
    .ok inst
  else if !options.silent then
    .error (.error ("Cannot import \"" ++ shownName ++ "\": already exists"))
  else
    .ok .undefined

/-- Calling a resolver closure. The modern one calls the factory on a scope made from `math`
(import.js:284-296; both branches of the test for the dependency `math` run the creation
body, which sees the resolved properties of `math`), the legacy one calls `load`. -/
def runResolver (typed : TypedEngine) : UnitResolver → Env → Except JsError Value × Env
  | .factory f fullName existing options, env =>
    let env := { env with core := { env.core with invoked := env.core.invoked ++ [f.id] } }
    match f.create env.core.math with
    | .error e => (.error e, env)
    | .ok inst => (resolveInstance typed fullName existing options inst, env)
  | .legacy u existing options, env =>
    match load u.toLoadable env.core with
    | (.error e, core) => (.error e, { env with core := core })
    | (.ok inst, core) =>
      (resolveInstance typed (u.name.getD "") existing options inst, { env with core := core })

/-- Reading `obj[name]`. A lazy property that has not been read runs its thunk and keeps
the result; when the thunk throws, the property stays as it is. `fuel` bounds the chain of
mirrors followed; a chain that does not end overflows the stack. -/
def Env.read (typed : TypedEngine) : Nat → Space → String → Env → Except JsError Value × Env
  | 0, _, _, env => (.error .rangeError, env)
  | fuel + 1, space, name, env =>
    match env.thunk? space name with
    | none => (.ok ((env.data space).get name), env)
    | some (.resolver r) =>
      match runResolver typed r env with
      | (.error e, env) => (.error e, env)
      | (.ok v, env) => (.ok v, env.assign space name v)
    | some (.mirror space' name') =>
      match Env.read typed fuel space' name' env with
      | (.error e, env) => (.error e, env)
      | (.ok v, env) => (.ok v, env.assign space name v)

/-- Reading `obj[name]` with enough fuel for every chain of mirrors that ends. -/
def Env.get (typed : TypedEngine) (space : Space) (name : String) (env : Env) :
    Except JsError Value × Env :=
  Env.read typed (env.pending.length + 1) space name env

/-- The call `math.emit('import', name, resolver, path)` in an instance. -/
def emitImportIn (name : String) (resolver : Resolver) (path : Option (List String))
    (env : Env) : EnvOutcome :=
  let out := emitImport name resolver path env.core.math
  ⟨env.setMath out.math, out.completion⟩

/-- import.js:164 `_deleteTransform` -/
def _deleteTransform (typed : TypedEngine) (name : String) (env : Env) : EnvOutcome :=
  match transformTarget false env.core.math with
  | .fails e => ⟨env, .throws e⟩
  | target =>
    let env := if target = .kernel then env.remove .transform name else env
    match mathWithTransformTarget env.core.math with
    | .kernel =>
      if allowedInExpressions name then
        match Env.get typed .root name env with
        | (.error e, env) => ⟨env, .throws e⟩
        | (.ok v, env) => ⟨env.assign .mathWithTransform name v, .normal⟩
      else
        ⟨env.remove .mathWithTransform name, .normal⟩
    | .foreign => ⟨env, .normal⟩
    | .fails e => ⟨env, .throws e⟩

/-- An assignment to or a lazy property on `math.expression.mathWithTransform`. -/
def onMathWithTransform (env : Env) (change : Env → Env) : EnvOutcome :=
  match mathWithTransformTarget env.core.math with
  | .kernel => ⟨change env, .normal⟩
  | .foreign => ⟨env, .normal⟩
  | .fails e => ⟨env, .throws e⟩

/-- The test `name in math.expression.transform` (import.js:206, 279). -/
def existingTransform (name : String) (env : Env) : Except JsError Bool :=
  match transformTarget true env.core.math with
  | .kernel => .ok (env.has .transform name)
  | .foreign => .ok false
  | .fails e => .error e

/-- The expression `namespace.hasOwnProperty(name) ? namespace[name] : undefined`. -/
def existingValue (typed : TypedEngine) (space : Space) (name : String) (env : Env) :
    Except JsError Value × Env :=
  if env.has space name then Env.get typed space name env else (.ok .undefined, env)

/-- import.js:390 `factoryAllowedInExpressions` -/
def factoryAllowedInExpressions (f : Factory) : Bool :=
  !nameContainsPath f.fn && !unsafeNames.contains f.fn

/-- import.js:386 `legacyFactoryAllowedInExpressions` -/
def legacyFactoryAllowedInExpressions (u : LegacyFactory) : Bool :=
  u.path == none && !unsafeNames.contains (u.name.getD "")

/-- import.js:274 `_importFactory` -/
def _importFactory (typed : TypedEngine) (f : Factory) (options : Options) (fullName : String)
    (env : Env) : EnvOutcome :=
  let path := pathOf fullName
  let name := nameOf fullName
  let space := traverse path
  match existingTransform name env with
  | .error e => ⟨env, .throws e⟩
  | .ok existingTransform =>
    match existingValue typed space name env with
    | (.error e, env) => ⟨env, .throws e⟩
    | (.ok existing, env) =>
      let resolver := UnitResolver.factory f fullName existing options
      let exposed := path == some ["expression", "transform"] || factoryAllowedInExpressions f
      let placed : EnvOutcome :=
        if f.lazy then
          let env := env.lazy space name (.resolver resolver)
          if existingTransform then _deleteTransform typed name env
          else if exposed then
            onMathWithTransform env fun env =>
              env.lazy .mathWithTransform name (.mirror space name)
          else ⟨env, .normal⟩
        else
          match runResolver typed resolver env with
          | (.error e, env) => ⟨env, .throws e⟩
          | (.ok v, env) =>
            let env := env.assign space name v
            if existingTransform then _deleteTransform typed name env
            else if exposed then
              onMathWithTransform env fun env => env.assign .mathWithTransform name v
            else ⟨env, .normal⟩
      placed.andThen (emitImportIn name (.unit f.id) path)

/-- import.js:203 `_importLegacyFactory` -/
def _importLegacyFactory (typed : TypedEngine) (u : LegacyFactory) (options : Options)
    (env : Env) : EnvOutcome :=
  match u.name with
  | some name =>
    match existingTransform name env with
    | .error e => ⟨env, .throws e⟩
    | .ok existingTransform =>
      let space :=
        match u.path with
        | some path => if path ≠ "" then traverse (some (segments path)) else .root
        | none => .root
      match existingValue typed space name env with
      | (.error e, env) => ⟨env, .throws e⟩
      | (.ok existing, env) =>
        let resolver := UnitResolver.legacy u existing options
        let exposed :=
          u.path == some "expression.transform" || legacyFactoryAllowedInExpressions u
        let placed : EnvOutcome :=
          if u.lazy then
            let env := env.lazy space name (.resolver resolver)
            if existingTransform then _deleteTransform typed name env
            else if exposed then
              onMathWithTransform env fun env =>
                env.lazy .mathWithTransform name (.resolver resolver)
            else ⟨env, .normal⟩
          else
            match runResolver typed resolver env with
            | (.error e, env) => ⟨env, .throws e⟩
            | (.ok v, env) =>
              let env := env.assign space name v
              if existingTransform then _deleteTransform typed name env
              else if exposed then
                match mathWithTransformTarget env.core.math with
                | .kernel =>
                  match runResolver typed resolver env with
                  | (.error e, env) => ⟨env, .throws e⟩
                  | (.ok v, env) => ⟨env.assign .mathWithTransform name v, .normal⟩
                | .foreign => ⟨env, .normal⟩
                | .fails e => ⟨env, .throws e⟩
              else ⟨env, .normal⟩
        placed.andThen (emitImportIn name (.unit u.id) (u.path.map segments))
  | none =>
    -- unnamed factory: no lazy loading
    match load u.toLoadable env.core with
    | (.error e, core) => ⟨{ env with core := core }, .throws e⟩
    | (.ok _, core) => ⟨{ env with core := core }, .normal⟩

/-- import.js:127-128 and 136-137 in an instance with lazy properties: the statements of
`install`; the assignments and the `delete` of `_importTransform` also end a lazy property
of the name in the two maps below `expression`. -/
def installValue (name : String) (value : Value) (env : Env) : EnvOutcome :=
  let out := install name value env.core.math
  let stored : Math := { env.core.math with ns := env.core.math.ns.set name value }
  let env := if transformTarget false stored = .kernel then env.unpend .transform name else env
  let env :=
    if allowedInExpressions name && mathWithTransformTarget stored = .kernel then
      env.unpend .mathWithTransform name
    else env
  ⟨env.setMath out.math, out.completion⟩

/-- import.js:104 `_import` in an instance with lazy properties: reading `math[name]` at
import.js:118 runs a lazy property of that name first. -/
def importValue (typed : TypedEngine) (name : String) (value : Value) (options : Options)
    (env : Env) : EnvOutcome :=
  match prepare typed name value options with
  | .error e => ⟨env, .throws e⟩
  | .ok value =>
    match Env.get typed .root name env with
    | (.error e, env) => ⟨env, .throws e⟩
    | (.ok existing, env) =>
      if isTypedFunction existing && isTypedFunction value then
        match (if options.override then typed.create name (signaturesOf value)
               else typed.merge existing value) with
        | .error e => ⟨env, .throws e⟩
        | .ok value => installValue name value env
      else if existing == .undefined || options.override then
        installValue name value env
      else if !options.silent then
        ⟨env, .throws (.error ("Cannot import \"" ++ name ++ "\": already exists"))⟩
      else
        ⟨env, .normal⟩

/-- The test `typeof value === 'object'`. -/
def Value.isObject : Value → Bool
  | .null => true
  | .object _ _ _ => true
  | .expression => true
  | _ => false

/-- The first argument of `import`, by the test of import.js:68-94 that it meets first. -/
inductive Importable where
  /-- A modern factory: `isFactory(object)`. -/
  | factory (f : Factory)
  /-- A legacy factory: `isLegacyFactory(object)`. -/
  | legacy (u : LegacyFactory)
  /-- An array, of identity `id`. -/
  | array (id : Nat) (entries : List Importable)
  /-- A plain object, one that inherits from `Object.prototype`, with its own enumerable
  properties, in order. -/
  | object (props : List (String × Importable))
  /-- An object without prototype (`Object.create(null)`) with its own enumerable
  properties, in order. -/
  | bare (props : List (String × Importable))
  /-- Any other value; an object among them has no enumerable property. -/
  | value (v : Value)

/-- The call `object.hasOwnProperty(name)` of import.js:77 for an own enumerable property of
the map, by what the map has under `hasOwnProperty`. Without an own property of that name
the method is the one of `Object.prototype`, which answers `true`, when the map inherits
from it, and `undefined` when it does not: the runtime throws a TypeError. An own property
that is a function is called, and what it does is not fixed by the source; one that is not a
function makes the runtime throw a TypeError. -/
def ownPropertyTest (inherits : Bool) (props : List (String × Importable)) : Completion :=
  match props.lookup "hasOwnProperty" with
  | none => if inherits then .normal else .throws .runtimeTypeError
  | some (.factory _) => .foreign
  | some (.value v) => if v.isFunction then .foreign else .throws .runtimeTypeError
  | some _ => .throws .runtimeTypeError

mutual
/-- import.js:57 `mathImport` -/
def mathImport (typed : TypedEngine) : Importable → Options → Env → EnvOutcome
  | .factory f, options, env => _importFactory typed f options f.fn env
  | .legacy u, options, env => _importLegacyFactory typed u options env
  | .array _ entries, options, env => importEntries typed entries options env
  | .object props, options, env =>
    match ownPropertyTest true props with
    | .normal => importProps typed props options env
    | stopped => ⟨env, stopped⟩
  | .bare props, _, env =>
    if props.isEmpty then ⟨env, .normal⟩ else ⟨env, ownPropertyTest false props⟩
  | .value v, options, env =>
    if v.isObject then ⟨env, .normal⟩
    else if !options.silent then ⟨env, .throws (.typeError "Factory, Object, or Array expected")⟩
    else ⟨env, .normal⟩
/-- import.js:73, `object.forEach((entry) => mathImport(entry, options))`. -/
def importEntries (typed : TypedEngine) : List Importable → Options → Env → EnvOutcome
  | [], _, env => ⟨env, .normal⟩
  | entry :: rest, options, env =>
    (mathImport typed entry options env).andThen (importEntries typed rest options)
/-- import.js:76-89, the loop over the own properties of a map whose `hasOwnProperty` is the
one of `Object.prototype` (see `ownPropertyTest`): a modern factory goes to
`_importFactory` under the name of the property, a supported value (an array is one) to
`_import`, anything else back to `mathImport`. The test `isLegacyFactory(object)` of
import.js:83 is on the map itself, which did not meet it at import.js:70. -/
def importProps (typed : TypedEngine) : List (String × Importable) → Options → Env → EnvOutcome
  | [], _, env => ⟨env, .normal⟩
  | (name, item) :: rest, options, env =>
    (match item with
      | .factory f => _importFactory typed f options name env
      | .array id _ => importValue typed name (.object id true .absent) options env
      | .value v =>
        if isSupportedType v then importValue typed name v options env
        else mathImport typed (.value v) options env
      | .legacy u => mathImport typed (.legacy u) options env
      | .object props => mathImport typed (.object props) options env
      | .bare props => mathImport typed (.bare props) options env).andThen
      (importProps typed rest options)
end

/-- The fresh instance of `createCore`, without lazy properties. -/
def freshEnv : Env := ⟨createCore, [], []⟩

/-- The modern unit `factory('myvalue', [], () => 1)` of identity 51, lazy or not. -/
def myvalueUnit (lazy : Bool) : Factory :=
  ⟨51, "myvalue", [], false, lazy, fun _ => .ok (.num 1)⟩

/-- The modern unit `factory('foo', [], () => 1)` of identity 50, lazy or not. -/
def fooUnit (lazy : Bool) : Factory :=
  ⟨50, "foo", [], false, lazy, fun _ => .ok (.num 1)⟩

/-- The modern unit `factory('expression.transform.docs', [], () => 1)` of identity 52. -/
def docsTransformUnit : Factory :=
  ⟨52, "expression.transform.docs", [], false, true, fun _ => .ok (.num 1)⟩

/-- The fresh instance after `math.import({ myvalue: 42 })`. -/
def envWithMyvalue : Env :=
  (mathImport specTyped (.object [("myvalue", .value (.num 42))]) {} freshEnv).env

/-- The fresh instance after `math.import({ add: typed('add', { number: f }) })`. -/
def envWithAdd : Env := ⟨{ createCore with math := coreWithAdd }, [], []⟩

/-! ## Numbers (`typed.js`, `bitOr.js`, `atanh.js`, `acoth.js`)

The code of the conversions and of the functions on numbers uses the operators of the
language on numbers: comparison, `x + ''`, `+x`, `x | y`. They are modelled after ECMAScript
on exact values; the arithmetic that rounds and the functions of `Math` are parameters. -/

/-- A JavaScript number. A finite number is given by its sign and its exact magnitude
`a / 2 ^ b`; every IEEE-754 double is of that form, `-0` being `finite true 0 0`. -/
inductive JsNumber where
  | nan
  | infinity (negative : Bool)
  | finite (negative : Bool) (a : Nat) (b : Nat)
  deriving DecidableEq, Repr

namespace JsNumber

/-- The number with the value of an integer. -/
def ofInt (n : Int) : JsNumber := .finite (decide (n < 0)) n.natAbs 0

/-- The numerator of a finite number with its sign. -/
def signed (negative : Bool) (a : Nat) : Int := if negative then -(a : Int) else a

/-- The comparison `x <= y`: false when a side is NaN. -/
def le : JsNumber → JsNumber → Bool
  | .nan, _ => false
  | _, .nan => false
  | .infinity true, _ => true
  | _, .infinity false => true
  | .infinity false, _ => false
  | _, .infinity true => false
  | .finite n a b, .finite n' a' b' => decide (signed n a * 2 ^ b' ≤ signed n' a' * 2 ^ b)

/-- The least `n` from `n` on, within `fuel` steps, with `a / 2 ^ b < 10 ^ n`. -/
def exponentUp (a b : Nat) : Nat → Nat → Nat
  | 0, n => n
  | fuel + 1, n => if a < 2 ^ b * 10 ^ n then n else exponentUp a b fuel (n + 1)

/-- The greatest `j` from `j` on, within `fuel` steps, with `a / 2 ^ b < 10 ^ (-j)`. -/
def exponentDown (a b : Nat) : Nat → Nat → Nat
  | 0, j => j
  | fuel + 1, j => if a * 10 ^ (j + 1) < 2 ^ b then exponentDown a b fuel (j + 1) else j

/-- The integer `n` with `10 ^ (n - 1) ≤ a / 2 ^ b < 10 ^ n`; for a double it lies between
`-323` and `309`. -/
def decimalExponent (a b : Nat) : Int :=
  if a < 2 ^ b then -(exponentDown a b 330 0 : Int) else exponentUp a b 310 1

/-- The least `j` from `j` on, within `fuel` steps, with `a < 2 ^ (j + 1)`. -/
def binaryExponentFrom (a : Nat) : Nat → Nat → Nat
  | 0, j => j
  | fuel + 1, j => if a < 2 ^ (j + 1) then j else binaryExponentFrom a fuel (j + 1)

/-- The integer `j` with `2 ^ j ≤ a < 2 ^ (j + 1)`, for `a` positive and below `2 ^ 2100`. -/
def binaryExponent (a : Nat) : Nat := binaryExponentFrom a 2100 0

/-- The exponent `e` of the unit in the last place of the double `a / 2 ^ b`: the double is
a multiple of `2 ^ e` with a significand below `2 ^ 53`, and `e` is at least `-1074`. -/
def ulpExponent (a b : Nat) : Int := max ((binaryExponent a : Int) - b - 52) (-1074)

/-- Rounding to nearest, ties to the even significand, on a common scale: `X` is the double,
`G` its unit in the last place (a multiple of 4) and `R` the value that is rounded. The
double below a power of two is half as far away as the one above, for a normal double. -/
def nearest (X G R : Nat) (normal : Bool) : Bool :=
  let significand := X / G
  let below := if significand = 2 ^ 52 ∧ normal = true then G / 4 else G / 2
  if significand % 2 = 0 then decide (X - below ≤ R ∧ R ≤ X + G / 2)
  else decide (X - below < R ∧ R < X + G / 2)

/-- Does the decimal `s × 10 ^ p` have the double `a / 2 ^ b` as its number value, that is,
does it round to it? All quantities are scaled by `2 ^ B × 10 ^ P`, which makes them natural
numbers. -/
def roundsTo (a b : Nat) (s : Nat) (p : Int) : Bool :=
  let e := ulpExponent a b
  let B : Nat := max b (2 - e).toNat
  let P : Nat := (-p).toNat
  nearest (a * 2 ^ (B - b) * 10 ^ P) (2 ^ (B + e).toNat * 10 ^ P)
    (s * 10 ^ (p + P).toNat * 2 ^ B) (decide (-1074 < e))

/-- The decimal with `k` digits that rounds to `a / 2 ^ b` and is closest to it, if there is
one: its digits `s` and its exponent `n`, the value being `s × 10 ^ (n - k)`. -/
def closestDecimal (a b : Nat) (n : Int) (k : Nat) : Option (Nat × Int) :=
  let p := n - k
  let P : Nat := (-p).toNat
  let x := a * 10 ^ P
  let unit := 10 ^ (p + P).toNat * 2 ^ b
  let low := x / unit
  let high : Nat × Int := if low + 1 = 10 ^ k then (10 ^ (k - 1), n + 1) else (low + 1, n)
  let lowFits : Bool := decide (10 ^ (k - 1) ≤ low ∧ low < 10 ^ k) && roundsTo a b low p
  let highFits : Bool :=
    decide (10 ^ (k - 1) ≤ low + 1 ∧ low + 1 ≤ 10 ^ k) && roundsTo a b (low + 1) p
  match lowFits, highFits with
  | true, true =>
    if 2 * x < (2 * low + 1) * unit ∨ (2 * x = (2 * low + 1) * unit ∧ low % 2 = 0) then
      some (low, n)
    else some high
  | true, false => some (low, n)
  | false, true => some high
  | false, false => none

/-- The digits `s`, their number `k` and the exponent `n` of ES Number::toString, step 5:
`k` is as small as possible; the search goes through `k`, `k + 1`, ... -/
def shortestFrom (a b : Nat) (n : Int) : Nat → Nat → Nat × Nat × Int
  | 0, k => (a * 10 ^ (k - n).toNat / (10 ^ (n - k).toNat * 2 ^ b), k, n)
  | fuel + 1, k =>
    match closestDecimal a b n k with
    | some (s, n') => (s, k, n')
    | none => shortestFrom a b n fuel (k + 1)

/-- Seventeen digits tell any two doubles apart. -/
def shortest (a b : Nat) : Nat × Nat × Int :=
  shortestFrom a b (decimalExponent a b) 17 1

/-- ES Number::toString, steps 6 to 10: the text for the digits `s`, `k` of them, and the
exponent `n`. -/
def render (s k : Nat) (n : Int) : String :=
  let digits := Nat.toDigits 10 s
  if (k : Int) ≤ n ∧ n ≤ 21 then
    String.mk (digits ++ List.replicate (n - k).toNat '0')
  else if 0 < n ∧ n ≤ 21 then
    String.mk (digits.take n.toNat ++ '.' :: digits.drop n.toNat)
  else if -6 < n ∧ n ≤ 0 then
    String.mk ('0' :: '.' :: List.replicate (-n).toNat '0' ++ digits)
  else
    let exponent := (if n - 1 < 0 then '-' else '+') :: Nat.toDigits 10 (n - 1).natAbs
    if k = 1 then String.mk (digits ++ 'e' :: exponent)
    else String.mk (digits.take 1 ++ '.' :: digits.drop 1 ++ 'e' :: exponent)

/-- ES Number::toString with radix 10, the string a number becomes in `x + ''`. -/
def toText : JsNumber → String
  | .nan => "NaN"
  | .infinity false => "Infinity"
  | .infinity true => "-Infinity"
  | .finite negative a b =>
    if a = 0 then "0"
    else
      let d := shortest a b
      (if negative then "-" else "") ++ render d.1 d.2.1 d.2.2

/-- The test `isFinite(x)`. -/
def isFinite : JsNumber → Bool
  | .finite _ _ _ => true
  | _ => false

/-- The test `isNaN(x)`. -/
def isNaN : JsNumber → Bool
  | .nan => true
  | _ => false

/-- ES ToInt32: truncate towards zero, reduce modulo `2 ^ 32` and read the result as a
signed 32-bit integer; NaN and the infinities give 0. -/
def toInt32 : JsNumber → Int
  | .finite negative a b =>
    let bits := signed negative (a / 2 ^ b) % 2 ^ 32
    if 2 ^ 31 ≤ bits then bits - 2 ^ 32 else bits
  | _ => 0

/-- The 32-bit two's-complement pattern of a signed 32-bit integer, as a natural number. -/
def bits32 (i : Int) : Nat := (i % 2 ^ 32).toNat

/-- The signed 32-bit integer with a given 32-bit pattern. -/
def ofBits32 (u : Nat) : Int := if 2 ^ 31 ≤ u then (u : Int) - 2 ^ 32 else u

/-- The operator `x | y` on numbers: both sides go through ToInt32 and the bit patterns are
combined bit by bit. -/
def bitwiseOr (x y : JsNumber) : JsNumber :=
  ofInt (ofBits32 (bits32 (toInt32 x) ||| bits32 (toInt32 y)))

instance : OfNat JsNumber n := ⟨.finite false n 0⟩

end JsNumber

namespace JsNumber

/-- Strict equality `x === y` of numbers: NaN equals nothing, `-0` equals `+0`. -/
def equals : JsNumber → JsNumber → Bool
  | .infinity n, .infinity n' => n == n'
  | .finite n a b, .finite n' a' b' => decide (signed n a * 2 ^ b' = signed n' a' * 2 ^ b)
  | _, _ => false

end JsNumber

/-! ## The conversions of `typed.js` -/

/-- Values as the conversions of typed.js handle them: primitives, and objects (instances of
the classes of `type`, arrays) named by their class and an identity. -/
inductive Datum where
  | number (x : JsNumber)
  | string (s : String)
  | boolean (b : Bool)
  | object (className : String) (id : Nat)
  deriving DecidableEq, Repr

/-- What typed.js takes from outside: the classes handed in as `type` with the methods of
their instances, `digits` of utils/number, and the conversions of the language that depend
on the text of a string or on the methods of an object. -/
structure TypeLibrary where
  /-- The expression `new type[className](...arguments)`. -/
  construct : String → List Datum → Except JsError Datum
  /-- A call `x[name]()` of a method of an object. -/
  method : Datum → String → Except JsError Datum
  /-- The function `digits` of utils/number. -/
  digits : Datum → Nat
  /-- The number a string converts to, `Number(x)`. -/
  parseNumber : String → JsNumber
  /-- The number an object converts to. -/
  objectToNumber : Datum → JsNumber
  /-- The string an object converts to. -/
  objectToText : Datum → String

namespace Datum

/-- The string a value becomes in a concatenation, as in `x + ''`. -/
def text (lib : TypeLibrary) : Datum → String
  | .number x => x.toText
  | .string s => s
  | .boolean b => if b then "true" else "false"
  | x => lib.objectToText x

/-- The number a value converts to, as in `+x` and `Number(x)`. -/
def unaryPlus (lib : TypeLibrary) : Datum → JsNumber
  | .number x => x
  | .boolean b => if b then 1 else 0
  | .string s => lib.parseNumber s
  | x => lib.objectToNumber x

/-- The comparison `a !== b`. -/
def strictNotEqual : Datum → Datum → Bool
  | .number x, .number y => !x.equals y
  | a, b => a != b

/-- The call `x[name]()`: a primitive answers `valueOf` with itself and has no other method
that the conversions call. -/
def callMethod (lib : TypeLibrary) (x : Datum) (name : String) : Except JsError Datum :=
  match x with
  | .object _ _ => lib.method x name
  | _ => if name = "valueOf" then .ok x else .error .runtimeTypeError

end Datum

/-- typed.js:153-161 and 354-362, the conversion from `number` to `BigNumber`. -/
def convert_number_BigNumber (lib : TypeLibrary) (x : Datum) : Except JsError Datum :=
  if lib.digits x > 15 then
    .error (.typeError
      ("Cannot implicitly convert a number with >15 significant digits to BigNumber " ++
        "(value: " ++ x.text lib ++ "). " ++
        "Use function bignumber(x) to convert to BigNumber."))
  else lib.construct "BigNumber" [x]

/-- typed.js:165-167 and 366-368, the conversion from `number` to `Complex`. -/
def convert_number_Complex (lib : TypeLibrary) (x : Datum) : Except JsError Datum :=
  lib.construct "Complex" [x, .number 0]

/-- typed.js:171-173 and 372-374, the conversion from `number` to `string`: `x + ''`. -/
def convert_number_string (lib : TypeLibrary) (x : Datum) : Except JsError Datum :=
  .ok (.string (x.text lib ++ ""))

/-- typed.js:177-179 and 378-380, the conversion from `BigNumber` to `Complex`. -/
def convert_BigNumber_Complex (lib : TypeLibrary) (x : Datum) : Except JsError Datum :=
  match x.callMethod lib "toNumber" with
  | .error e => .error e
  | .ok n => lib.construct "Complex" [n, .number 0]

/-- typed.js:183-186 and 384-387, the conversion from `Fraction` to `BigNumber`. -/
def convert_Fraction_BigNumber (_ : TypeLibrary) (_ : Datum) : Except JsError Datum :=
  .error (.typeError
    ("Cannot implicitly convert a Fraction to BigNumber or vice versa. " ++
      "Use function bignumber(x) to convert to BigNumber or fraction(x) to convert to " ++
      "Fraction."))

/-- typed.js:190-192 and 391-393, the conversion from `Fraction` to `Complex`. -/
def convert_Fraction_Complex (lib : TypeLibrary) (x : Datum) : Except JsError Datum :=
  match x.callMethod lib "valueOf" with
  | .error e => .error e
  | .ok v => lib.construct "Complex" [v, .number 0]

/-- typed.js:196-204 and 397-405, the conversion from `number` to `Fraction`. -/
def convert_number_Fraction (lib : TypeLibrary) (x : Datum) : Except JsError Datum :=
  match lib.construct "Fraction" [x] with
  | .error e => .error e
  | .ok f =>
    match f.callMethod lib "valueOf" with
    | .error e => .error e
    | .ok v =>
      if v.strictNotEqual x then
        .error (.typeError
          ("Cannot implicitly convert a number to a Fraction when there will be a loss of " ++
            "precision (value: " ++ x.text lib ++ "). " ++
            "Use function fraction(x) to convert to Fraction."))
      else lib.construct "Fraction" [x]

/-- typed.js:215-221 and 416-422, the conversion from `string` to `number`. -/
def convert_string_number (lib : TypeLibrary) (x : Datum) : Except JsError Datum :=
  let n : JsNumber := x.unaryPlus lib
  if n.isNaN then .error (.error ("Cannot convert \"" ++ x.text lib ++ "\" to a number"))
  else .ok (.number n)

/-- typed.js:225-231 and 426-432, the conversion from `string` to `BigNumber`. -/
def convert_string_BigNumber (lib : TypeLibrary) (x : Datum) : Except JsError Datum :=
  match lib.construct "BigNumber" [x] with
  | .ok v => .ok v
  | .error _ => .error (.error ("Cannot convert \"" ++ x.text lib ++ "\" to BigNumber"))

/-- typed.js:235-241 and 436-442, the conversion from `string` to `Fraction`. -/
def convert_string_Fraction (lib : TypeLibrary) (x : Datum) : Except JsError Datum :=
  match lib.construct "Fraction" [x] with
  | .ok v => .ok v
  | .error _ => .error (.error ("Cannot convert \"" ++ x.text lib ++ "\" to Fraction"))

/-- typed.js:245-251 and 446-452, the conversion from `string` to `Complex`. -/
def convert_string_Complex (lib : TypeLibrary) (x : Datum) : Except JsError Datum :=
  match lib.construct "Complex" [x] with
  | .ok v => .ok v
  | .error _ => .error (.error ("Cannot convert \"" ++ x.text lib ++ "\" to Complex"))

/-- typed.js:255-257 and 456-458, the conversion from `boolean` to `number`: `+x`. -/
def convert_boolean_number (lib : TypeLibrary) (x : Datum) : Except JsError Datum :=
  .ok (.number (x.unaryPlus lib))

/-- typed.js:261-263 and 462-464, the conversion from `boolean` to `BigNumber`. -/
def convert_boolean_BigNumber (lib : TypeLibrary) (x : Datum) : Except JsError Datum :=
  lib.construct "BigNumber" [.number (x.unaryPlus lib)]

/-- typed.js:267-269 and 468-470, the conversion from `boolean` to `Fraction`. -/
def convert_boolean_Fraction (lib : TypeLibrary) (x : Datum) : Except JsError Datum :=
  lib.construct "Fraction" [.number (x.unaryPlus lib)]

/-- typed.js:273-275 and 474-476, the conversion from `boolean` to `string`: `+x`. -/
def convert_boolean_string (lib : TypeLibrary) (x : Datum) : Except JsError Datum :=
  .ok (.number (x.unaryPlus lib))

/-- typed.js:279-281 and 480-482, the conversion from `Array` to `Matrix`. -/
def convert_Array_Matrix (lib : TypeLibrary) (array : Datum) : Except JsError Datum :=
  lib.construct "DenseMatrix" [array]

/-- typed.js:285-287 and 486-488, the conversion from `Matrix` to `Array`. -/
def convert_Matrix_Array (lib : TypeLibrary) (matrix : Datum) : Except JsError Datum :=
  matrix.callMethod lib "valueOf"

/-- One entry of `typed.conversions`: the properties `from`, `to` and `convert`. -/
structure Conversion where
  source : String
  target : String
  convert : TypeLibrary → Datum → Except JsError Datum

/-- The conversion list of typed.js:350-490, `typed.conversions` as `createTyped` sets it. -/
def createTyped_conversions : List Conversion :=
  [⟨"number", "BigNumber", convert_number_BigNumber⟩,
    ⟨"number", "Complex", convert_number_Complex⟩,
    ⟨"number", "string", convert_number_string⟩,
    ⟨"BigNumber", "Complex", convert_BigNumber_Complex⟩,
    ⟨"Fraction", "BigNumber", convert_Fraction_BigNumber⟩,
    ⟨"Fraction", "Complex", convert_Fraction_Complex⟩,
    ⟨"number", "Fraction", convert_number_Fraction⟩,
    ⟨"string", "number", convert_string_number⟩,
    ⟨"string", "BigNumber", convert_string_BigNumber⟩,
    ⟨"string", "Fraction", convert_string_Fraction⟩,
    ⟨"string", "Complex", convert_string_Complex⟩,
    ⟨"boolean", "number", convert_boolean_number⟩,
    ⟨"boolean", "BigNumber", convert_boolean_BigNumber⟩,
    ⟨"boolean", "Fraction", convert_boolean_Fraction⟩,
    ⟨"boolean", "string", convert_boolean_string⟩,
    ⟨"Array", "Matrix", convert_Array_Matrix⟩,
    ⟨"Matrix", "Array", convert_Matrix_Array⟩]

/-- The conversion list of typed.js:149-289, `typed.conversions` as `createTypedLegacy` sets
it: the same edges with the same bodies, in the same order. -/
def createTypedLegacy_conversions : List Conversion :=
  [⟨"number", "BigNumber", convert_number_BigNumber⟩,
    ⟨"number", "Complex", convert_number_Complex⟩,
    ⟨"number", "string", convert_number_string⟩,
    ⟨"BigNumber", "Complex", convert_BigNumber_Complex⟩,
    ⟨"Fraction", "BigNumber", convert_Fraction_BigNumber⟩,
    ⟨"Fraction", "Complex", convert_Fraction_Complex⟩,
    ⟨"number", "Fraction", convert_number_Fraction⟩,
    ⟨"string", "number", convert_string_number⟩,
    ⟨"string", "BigNumber", convert_string_BigNumber⟩,
    ⟨"string", "Fraction", convert_string_Fraction⟩,
    ⟨"string", "Complex", convert_string_Complex⟩,
    ⟨"boolean", "number", convert_boolean_number⟩,
    ⟨"boolean", "BigNumber", convert_boolean_BigNumber⟩,
    ⟨"boolean", "Fraction", convert_boolean_Fraction⟩,
    ⟨"boolean", "string", convert_boolean_string⟩,
    ⟨"Array", "Matrix", convert_Array_Matrix⟩,
    ⟨"Matrix", "Array", convert_Matrix_Array⟩]

/-- The ordered pairs of type names that a conversion list has an edge for. -/
def conversionPairs (conversions : List Conversion) : List (String × String) :=
  conversions.map fun c => (c.source, c.target)

/-- The edges of a conversion list from one type name to another. -/
def edges (conversions : List Conversion) (source target : String) : List Conversion :=
  conversions.filter fun c => c.source == source && c.target == target

/-- What the edges from `source` to `target` return for an argument. -/
def converted (conversions : List Conversion) (lib : TypeLibrary) (source target : String)
    (x : Datum) : List (Except JsError Datum) :=
  (edges conversions source target).map fun c => c.convert lib x

/-- The test `typeof value === 'string'` on the result of a conversion. -/
def returnsString : Except JsError Datum → Bool
  | .ok (.string _) => true
  | _ => false

/-! ## `bitOr`, `atanh`, `acoth` on numbers -/

/-- Modelled from the spec: `isInteger` of utils/number (no file of src/), on a number: the
number is finite and has no fractional part. -/
def isInteger : JsNumber → Bool
  | .finite _ a b => a % 2 ^ b == 0
  | _ => false

/-- bitOr.js:52-58, the implementation of `bitOr` for the signature `number, number`. -/
def bitOr_number_number (x y : JsNumber) : Except JsError JsNumber :=
  if !isInteger x || !isInteger y then .error (.error "Integers expected in function bitOr")
  else .ok (x.bitwiseOr y)

/-- The arithmetic on doubles and the functions of `Math` that atanh.js and acoth.js
use. Each of them returns a number. -/
structure FloatOps where
  add : JsNumber → JsNumber → JsNumber
  sub : JsNumber → JsNumber → JsNumber
  div : JsNumber → JsNumber → JsNumber
  /-- The function `Math.log`. -/
  log : JsNumber → JsNumber
  /-- The function `Math.atanh`, where the engine has one. -/
  atanh : Option (JsNumber → JsNumber)

/-- An instance of `type.Complex`: real and imaginary part. -/
structure ComplexValue where
  re : JsNumber
  im : JsNumber
  deriving DecidableEq, Repr

/-- The methods of `type.Complex` (the package complex.js) that atanh.js and acoth.js call;
each returns a Complex. -/
structure ComplexOps where
  atanh : ComplexValue → ComplexValue
  acoth : ComplexValue → ComplexValue

/-- What a function on numbers returns: a number or a Complex. -/
inductive Scalar where
  | number (x : JsNumber)
  | complex (z : ComplexValue)
  deriving DecidableEq, Repr

/-- atanh.js:62-64 `_atanh`: `Math.atanh`, or `Math.log((1 + x) / (1 - x)) / 2` where the
engine has none. -/
def _atanh (fp : FloatOps) (x : JsNumber) : JsNumber :=
  match fp.atanh with
  | some f => f x
  | none => fp.div (fp.log (fp.div (fp.add 1 x) (fp.sub 1 x))) 2

/-- atanh.js:32-37, the implementation of `atanh` for the signature `number`; `predictable`
is the truthiness of `config.predictable`. -/
def atanh_number (fp : FloatOps) (cx : ComplexOps) (predictable : Bool) (x : JsNumber) :
    Scalar :=
  if (x.le 1 && JsNumber.le (.ofInt (-1)) x) || predictable then .number (_atanh fp x)
  else .complex (cx.atanh ⟨x, 0⟩)

/-- acoth.js:32-37, the implementation of `acoth` for the signature `number`. -/
def acoth_number (fp : FloatOps) (cx : ComplexOps) (predictable : Bool) (x : JsNumber) :
    Scalar :=
  if JsNumber.le 1 x || x.le (.ofInt (-1)) || predictable then
    .number
      (if x.isFinite then
        fp.div (fp.add (fp.log (fp.div (fp.add x 1) x)) (fp.log (fp.div x (fp.sub x 1)))) 2
      else 0)
  else .complex (cx.acoth ⟨x, 0⟩)

/-! ## The conversion hooks of `core.js` -/

/-- The call `f(...args)` of a value: a TypeError of the runtime when it is not a function. -/
def callValue (apply : Value → List Value → Except JsError Value) (valueOf : Value → Value)
    (f : Value) (args : List Value) : Except JsError Value :=
  if f.isFunction then call apply valueOf f args else .error .runtimeTypeError

/-- core.js:150-156, the hook `bignumber` handed to `createTyped`; `text` is the string a
value becomes in a template. -/
def bignumberHook (apply : Value → List Value → Except JsError Value)
    (valueOf : Value → Value) (text : Value → String) (math : Math) (x : Value) :
    Except JsError Value :=
  if !(math.ns.get "bignumber").truthy then
    .error (.error ("Cannot convert value " ++ text x ++
      " into a BigNumber: factory function 'math.bignumber' missing"))
  else callValue apply valueOf (math.ns.get "bignumber") [x]

/-- core.js:157-163, the hook `complex`. -/
def complexHook (apply : Value → List Value → Except JsError Value)
    (valueOf : Value → Value) (text : Value → String) (math : Math) (x : Value) :
    Except JsError Value :=
  if !(math.ns.get "complex").truthy then
    .error (.error ("Cannot convert value " ++ text x ++
      " into a Complex number: factory function 'math.complex' missing"))
  else callValue apply valueOf (math.ns.get "complex") [x]

/-- core.js:164-170, the hook `fraction`. -/
def fractionHook (apply : Value → List Value → Except JsError Value)
    (valueOf : Value → Value) (text : Value → String) (math : Math) (x : Value) :
    Except JsError Value :=
  if !(math.ns.get "fraction").truthy then
    .error (.error ("Cannot convert value " ++ text x ++
      " into a Fraction: factory function 'math.fraction' missing"))
  else callValue apply valueOf (math.ns.get "fraction") [x]

/-- core.js:171-177, the hook `matrix`: the test reads `math.fraction`. -/
def matrixHook (apply : Value → List Value → Except JsError Value)
    (valueOf : Value → Value) (math : Math) (x : Value) : Except JsError Value :=
  if !(math.ns.get "fraction").truthy then
    .error (.error "Cannot convert array into a Matrix: factory function 'math.matrix' missing")
  else callValue apply valueOf (math.ns.get "matrix") [x]

/-- The fresh namespace after `math.import({ expression: 42 }, { override: true })`, which
stored 42 under `expression` and then threw. -/
def mathWithExpression42 : Math :=
  (_import specTyped "expression" (.num 42) { override := true } createCore.math).math

/-- The fresh namespace with a function under `fraction` and nothing under `matrix`. -/
def mathWithFraction : Math :=
  { createCore.math with ns := createCore.math.ns.set "fraction" (.func 30 none .absent) }

/-- The fresh namespace with a function under `matrix` and nothing under `fraction`. -/
def mathWithMatrix : Math :=
  { createCore.math with ns := createCore.math.ns.set "matrix" (.func 31 none .absent) }

/-- A library for the examples: every constructor makes an object of its class, a method
answers with its receiver, and no string is the text of a number. -/
def exampleLibrary : TypeLibrary where
  construct className _ := .ok (.object className 0)
  method x _ := .ok x
  digits _ := 1
  parseNumber _ := .nan
  objectToNumber _ := .nan
  objectToText _ := "[object Object]"

/-! ## Lemmas on property maps -/

theorem Obj.get_set_self (o : Obj) (k : String) (v : Value) : (o.set k v).get k = v := by
  induction o with
  | nil => simp [Obj.set, Obj.get, List.lookup]
  | cons p rest ih =>
    obtain ⟨k', v'⟩ := p
    by_cases h : k' = k
    · simp [Obj.set, Obj.get, List.lookup, h]
    · have hb : (k == k') = false := by
        simpa using fun e => h e.symm
      simpa [Obj.set, Obj.get, List.lookup, h, hb] using ih

theorem Obj.get_set_of_ne (o : Obj) {k k' : String} (v : Value) (h : k' ≠ k) :
    (o.set k v).get k' = o.get k' := by
  induction o with
  | nil =>
    have hb : (k' == k) = false := by simpa using h
    simp [Obj.set, Obj.get, List.lookup, hb]
  | cons p rest ih =>
    obtain ⟨k₀, v₀⟩ := p
    by_cases h₀ : k₀ = k
    · subst h₀
      have hb : (k' == k₀) = false := by simpa using h
      simp [Obj.set, Obj.get, List.lookup, hb]
    · by_cases h₁ : k' = k₀
      · subst h₁
        simp [Obj.set, Obj.get, List.lookup, h₀]
      · have hb : (k' == k₀) = false := by simpa using h₁
        simpa [Obj.set, Obj.get, List.lookup, h₀, hb] using ih

/-- Writing an entry other than `expression` and `emit` keeps the kernel members. -/
theorem Intact.set {math : Math} (h : Intact math) {name : String} (value : Value)
    (he : name ≠ "expression") (hm : name ≠ "emit") :
    Intact { math with ns := math.ns.set name value } := by
  obtain ⟨h₁, h₂⟩ := h
  refine ⟨?_, ?_⟩
  · show (math.ns.set name value).get "expression" = .expression
    rw [Obj.get_set_of_ne _ _ (Ne.symm he)]; exact h₁
  · show (math.ns.set name value).get "emit" = .emit
    rw [Obj.get_set_of_ne _ _ (Ne.symm hm)]; exact h₂

theorem transformed_ns (name : String) (value : Value) (math : Math) :
    (transformed name value math).ns = math.ns := by
  unfold transformed; split <;> rfl

theorem transformed_events (name : String) (value : Value) (math : Math) :
    (transformed name value math).events = math.events := by
  unfold transformed; split <;> rfl

/-- With `math.expression` intact, `_importTransform` ends normally in `transformed`. -/
theorem _importTransform_eq {math : Math} (h : math.ns.get "expression" = .expression)
    (name : String) (value : Value) :
    _importTransform name value math = ⟨transformed name value math, .normal⟩ := by
  unfold _importTransform transformed
  split <;>
    (by_cases ha : allowedInExpressions name = true <;>
      simp [assignTransform, deleteTransform, assignMathWithTransform, transformTarget,
        mathWithTransformTarget, h, ha])

/-- With the kernel members intact, `install` under an ordinary name ends normally in the
state `installed`. -/
theorem install_eq {math : Math} (h : Intact math) (name : String) (value : Value)
    (he : name ≠ "expression") (hm : name ≠ "emit") :
    install name value math = ⟨installed name value math, .normal⟩ := by
  obtain ⟨h₁, h₂⟩ := Intact.set h value he hm
  simp only at h₁ h₂
  have h₃ : (transformed name value { math with ns := math.ns.set name value }).ns.get "emit"
      = .emit := by rw [transformed_ns]; exact h₂
  unfold install
  rw [_importTransform_eq (by exact h₁)]
  simp [emitImport, installed, h₃]

theorem installed_ns (name : String) (value : Value) (math : Math) :
    (installed name value math).ns = math.ns.set name value := by
  simp [installed, transformed_ns]

theorem installed_events (name : String) (value : Value) (math : Math) :
    (installed name value math).events
      = math.events ++ [⟨"import", name, .returns value, none⟩] := by
  simp [installed, transformed_events]

/-! ## `prepare` -/

theorem prepare_wrap (typed : TypedEngine) (name : String) {value : Value} {options : Options}
    (hw : options.wrap = true) (hf : value.isFunction = true) :
    prepare typed name value options = .ok (_wrap value) := by
  simp [prepare, hw, hf, _wrap]

theorem prepare_plain (typed : TypedEngine) (name : String) {value : Value} {options : Options}
    (hw : options.wrap = false ∨ value.isFunction = false)
    (hs : hasTypedFunctionSignature value = false) :
    prepare typed name value options = .ok value := by
  have hc : (options.wrap && value.isFunction) = false := by
    rcases hw with h | h <;> simp [h]
  unfold prepare
  simp only [hc]
  cases value with
  | func id signature t =>
    cases signature with
    | none => rfl
    | some sig => simp [hasTypedFunctionSignature] at hs
  | _ => rfl

/-- An entry that is `undefined` is neither of the kernel members. -/
theorem ne_kernel_of_undefined {math : Math} (h : Intact math) (name : String)
    (hn : math.ns.get name = .undefined) : name ≠ "expression" ∧ name ≠ "emit" := by
  obtain ⟨h₁, h₂⟩ := h
  constructor
  · rintro rfl; rw [h₁] at hn; cases hn
  · rintro rfl; rw [h₂] at hn; cases hn

/-- An entry that is a typed-function is neither of the kernel members. -/
theorem ne_kernel_of_typed {math : Math} (h : Intact math) (name : String)
    (hn : isTypedFunction (math.ns.get name) = true) : name ≠ "expression" ∧ name ≠ "emit" := by
  obtain ⟨h₁, h₂⟩ := h
  constructor
  · rintro rfl; rw [h₁] at hn; cases hn
  · rintro rfl; rw [h₂] at hn; cases hn

/-- The branch of import.js:135 taken for a value that is installed as it stands. -/
theorem _import_install {typed : TypedEngine} {math : Math} {name : String} {value v : Value}
    {options : Options} (hp : prepare typed name value options = .ok v)
    (hd : (isTypedFunction (math.ns.get name) && isTypedFunction v) = false)
    (hi : (math.ns.get name == .undefined || options.override) = true) :
    _import typed name value options math = install name v math := by
  unfold _import
  simp only [hp, hd, hi]
  simp

/-- The branch of import.js:144 taken on a conflict. -/
theorem _import_conflict {typed : TypedEngine} {math : Math} {name : String} {value v : Value}
    {options : Options} (hp : prepare typed name value options = .ok v)
    (hd : (isTypedFunction (math.ns.get name) && isTypedFunction v) = false)
    (hi : (math.ns.get name == .undefined || options.override) = false) :
    _import typed name value options math =
      if options.silent then ⟨math, .normal⟩
      else ⟨math, .throws (.error ("Cannot import \"" ++ name ++ "\": already exists"))⟩ := by
  unfold _import
  simp only [hp, hd, hi]
  cases options.silent <;> simp

/-! ## Claims on `_import` -/

/-- C1 (amended). In an instance whose kernel members are intact, importing under a name
whose entry is `undefined` ends normally with the entry holding the value as `_import`
prepares it, whatever `override` and `silent` are: the wrapper when `wrap` is set and the
value is a function, the value itself when it is not wrapped and carries no string
`signature`, and otherwise the typed-function that `typed(name, {signature: value})`
returns; the import throws only what that call of `typed` throws, and then changes nothing. -/
theorem C1_import_new_name (typed : TypedEngine) (math : Math) (name : String) (value : Value)
    (options : Options) (h : Intact math) (hnew : math.ns.get name = .undefined) :
    (∀ v, prepare typed name value options = .ok v →
      (_import typed name value options math).completion = .normal ∧
      (_import typed name value options math).math.ns.get name = v) ∧
    (options.wrap = true → value.isFunction = true →
      prepare typed name value options = .ok (_wrap value)) ∧
    ((options.wrap = false ∨ value.isFunction = false) →
      hasTypedFunctionSignature value = false →
      prepare typed name value options = .ok value) ∧
    (∀ e, prepare typed name value options = .error e →
      _import typed name value options math = ⟨math, .throws e⟩) := by
  obtain ⟨he, hm⟩ := ne_kernel_of_undefined h name hnew
  refine ⟨fun v hp => ?_, prepare_wrap typed name, prepare_plain typed name, fun e hp => ?_⟩
  · have hd : (isTypedFunction (math.ns.get name) && isTypedFunction v) = false := by
      simp [hnew, isTypedFunction]
    have hi : (math.ns.get name == .undefined || options.override) = true := by
      simp [hnew]
    rw [_import_install hp hd hi, install_eq h name v he hm]
    exact ⟨rfl, by simp [installed_ns, Obj.get_set_self]⟩
  · unfold _import; simp [hp]

/-- C1 (witness): importing `myvalue: 42` into the fresh instance. -/
theorem C1_import_new_name_witness :
    Intact createCore.math ∧ createCore.math.ns.get "myvalue" = .undefined ∧
    (_import specTyped "myvalue" (.num 42) {} createCore.math).math.ns.get "myvalue"
      = .num 42 :=
  ⟨by decide, by decide,
    ((C1_import_new_name specTyped createCore.math "myvalue" (.num 42) {} (by decide)
      (by decide)).1 (.num 42) rfl).2⟩

/-- C1 (counterexample). A plain function carrying the signature `number`, imported under the
new name `f` without `wrap`: the entry holds a typed-function, not the imported function. -/
theorem C1_counterexample :
    Intact createCore.math ∧ createCore.math.ns.get "f" = .undefined ∧
    isSupportedType (.func 10 (some "number") .absent) = true ∧
    (_import specTyped "f" (.func 10 (some "number") .absent) {} createCore.math).math.ns.get "f"
      = .typed "f" [("number", 10)] .absent ∧
    (_import specTyped "f" (.func 10 (some "number") .absent) {} createCore.math).math.ns.get "f"
      ≠ .func 10 (some "number") .absent := by
  decide

/-- C2 (amended). When the entry of the name is defined and the entry and the incoming value,
as `_import` prepares it (wrapped when `wrap` is set, turned into a typed-function when it is a
function with a string `signature`), are not both typed-functions, `_import` without
`override` and without `silent` throws `Cannot import "<name>": already exists` and leaves
the namespace, both transform maps and the event log as they were. -/
theorem C2_conflict_throws (typed : TypedEngine) (math : Math) (name : String)
    (value v : Value) (options : Options)
    (hp : prepare typed name value options = .ok v)
    (hdef : math.ns.get name ≠ .undefined)
    (hd : ¬ (isTypedFunction (math.ns.get name) = true ∧ isTypedFunction v = true))
    (ho : options.override = false) (hs : options.silent = false) :
    _import typed name value options math
      = ⟨math, .throws (.error ("Cannot import \"" ++ name ++ "\": already exists"))⟩ := by
  have hd' : (isTypedFunction (math.ns.get name) && isTypedFunction v) = false := by
    simpa using hd
  have hi : (math.ns.get name == .undefined || options.override) = false := by
    simp [ho, hdef]
  rw [_import_conflict hp hd' hi]
  simp [hs]

/-- C2 (witness): importing `config: 1` into the fresh instance. -/
theorem C2_conflict_throws_witness :
    _import specTyped "config" (.num 1) {} createCore.math
      = ⟨createCore.math, .throws (.error "Cannot import \"config\": already exists")⟩ :=
  C2_conflict_throws specTyped createCore.math "config" (.num 1) (.num 1) {} rfl
    (by decide) (by decide) rfl rfl

/-- C2 (counterexample). The entry `add` is a typed-function and the incoming value is a plain
function with the signature `string`, so they are not both typed-functions; without
`override` and `silent` the import does not throw: it merges and installs. -/
theorem C2_counterexample :
    coreWithAdd.ns.get "add" ≠ .undefined ∧
    ¬ (isTypedFunction (coreWithAdd.ns.get "add") = true ∧
        isTypedFunction (.func 21 (some "string") .absent) = true) ∧
    (_import specTyped "add" (.func 21 (some "string") .absent) {} coreWithAdd).completion
      = .normal ∧
    (_import specTyped "add" (.func 21 (some "string") .absent) {} coreWithAdd).math.ns.get "add"
      = .typed "add" [("number", 20), ("string", 21)] .absent := by
  decide

/-- C3 (amended). When the entry of the name is defined and the entry and the incoming value,
as `_import` prepares it, are not both typed-functions, `_import` with `silent: true` and
without `override` ends normally and leaves the namespace, both transform maps and the event
log as they were. -/
theorem C3_conflict_silent (typed : TypedEngine) (math : Math) (name : String)
    (value v : Value) (options : Options)
    (hp : prepare typed name value options = .ok v)
    (hdef : math.ns.get name ≠ .undefined)
    (hd : ¬ (isTypedFunction (math.ns.get name) = true ∧ isTypedFunction v = true))
    (ho : options.override = false) (hs : options.silent = true) :
    _import typed name value options math = ⟨math, .normal⟩ := by
  have hd' : (isTypedFunction (math.ns.get name) && isTypedFunction v) = false := by
    simpa using hd
  have hi : (math.ns.get name == .undefined || options.override) = false := by
    simp [ho, hdef]
  rw [_import_conflict hp hd' hi]
  simp [hs]

/-- C3 (witness): importing `config: 1` silently into the fresh instance. -/
theorem C3_conflict_silent_witness :
    _import specTyped "config" (.num 1) { silent := true } createCore.math
      = ⟨createCore.math, .normal⟩ :=
  C3_conflict_silent specTyped createCore.math "config" (.num 1) (.num 1) { silent := true }
    rfl (by decide) (by decide) rfl rfl

/-- C3 (counterexample). The entry `add` is a typed-function and the incoming value a plain
function with the signature `string`: with `silent: true` the import is not a no-op, it
installs the merged table and notifies. -/
theorem C3_counterexample :
    coreWithAdd.ns.get "add" ≠ .undefined ∧
    ¬ (isTypedFunction (coreWithAdd.ns.get "add") = true ∧
        isTypedFunction (.func 21 (some "string") .absent) = true) ∧
    (_import specTyped "add" (.func 21 (some "string") .absent) { silent := true }
        coreWithAdd).math ≠ coreWithAdd ∧
    (_import specTyped "add" (.func 21 (some "string") .absent) { silent := true }
        coreWithAdd).math.events.length = coreWithAdd.events.length + 1 := by
  decide

/-- C4 (amended). In an instance whose kernel members are intact, for a name other than
`expression`, `emit` and `__proto__` whose entry is not a typed-function (defined or not),
`_import` with `override: true` ends normally, whatever `silent` is, with the entry holding
the value as `_import` prepares it: the incoming value itself when it is not wrapped and
carries no string `signature`, its wrapper when `wrap` is set and it is a function. The name
`__proto__` is left out: the write of import.js:136 goes to the accessor that `math`
inherits, not to an entry. -/
theorem C4_override_replaces (typed : TypedEngine) (math : Math) (name : String)
    (value v : Value) (options : Options) (h : Intact math)
    (he : name ≠ "expression") (hm : name ≠ "emit") (_ : name ≠ "__proto__")
    (hnt : isTypedFunction (math.ns.get name) = false)
    (ho : options.override = true)
    (hp : prepare typed name value options = .ok v) :
    (_import typed name value options math).completion = .normal ∧
    (_import typed name value options math).math.ns.get name = v ∧
    ((options.wrap = false ∨ value.isFunction = false) →
      hasTypedFunctionSignature value = false → v = value) ∧
    (options.wrap = true → value.isFunction = true → v = _wrap value) := by
  have hd : (isTypedFunction (math.ns.get name) && isTypedFunction v) = false := by
    simp [hnt]
  have hi : (math.ns.get name == .undefined || options.override) = true := by
    simp [ho]
  rw [_import_install hp hd hi, install_eq h name v he hm]
  refine ⟨rfl, by simp [installed_ns, Obj.get_set_self], fun hw hs => ?_, fun hw hf => ?_⟩
  · have := prepare_plain typed name hw hs
    rw [hp] at this; cases this; rfl
  · have := prepare_wrap typed name hw hf
    rw [hp] at this; cases this; rfl

/-- C4 (witness): overriding the entry `config` of the fresh instance with 42. -/
theorem C4_override_replaces_witness :
    Intact createCore.math ∧ createCore.math.ns.get "config" ≠ .undefined ∧
    (_import specTyped "config" (.num 42) { override := true } createCore.math).completion
      = .normal ∧
    (_import specTyped "config" (.num 42) { override := true } createCore.math).math.ns.get
      "config" = .num 42 :=
  have w := C4_override_replaces specTyped createCore.math "config" (.num 42) (.num 42)
    { override := true } (by decide) (by decide) (by decide) (by decide) (by decide) rfl rfl
  ⟨by decide, by decide, w.1, w.2.1⟩

/-- C4 (counterexample). The entry `config` holds a plain function; overriding it with a plain
function that carries the signature `number` leaves a typed-function in the entry, not the
incoming value. And overriding the entry `expression`, which holds an object, with 42 throws:
the value is stored and `math.expression.transform` is then read from the number. -/
theorem C4_counterexample :
    (createCore.math.ns.get "config" ≠ .undefined ∧
      isTypedFunction (createCore.math.ns.get "config") = false ∧
      (_import specTyped "config" (.func 10 (some "number") .absent) { override := true }
          createCore.math).math.ns.get "config" = .typed "config" [("number", 10)] .absent ∧
      (_import specTyped "config" (.func 10 (some "number") .absent) { override := true }
          createCore.math).math.ns.get "config" ≠ .func 10 (some "number") .absent) ∧
    (createCore.math.ns.get "expression" ≠ .undefined ∧
      isTypedFunction (createCore.math.ns.get "expression") = false ∧
      (_import specTyped "expression" (.num 42) { override := true } createCore.math).completion
        = .throws .runtimeTypeError) := by
  decide

/-- C5 (amended). In an instance whose kernel members are intact, every call of `_import`
for a name other than `expression` and `emit` either installs and emits exactly one `import`
notification carrying the name and a resolver that returns the installed entry, or is skipped,
or throws, and in the last two cases emits nothing and changes nothing. -/
theorem C5_notifies_once (typed : TypedEngine) (math : Math) (name : String) (value : Value)
    (options : Options) (h : Intact math) (he : name ≠ "expression") (hm : name ≠ "emit") :
    NotifiesOnce typed name value options math := by
  have key : ∀ v, (install name v math).completion = .normal ∧
      (install name v math).math.events
        = math.events ++ [⟨"import", name, .returns ((install name v math).math.ns.get name),
            none⟩] := by
    intro v
    rw [install_eq h name v he hm]
    exact ⟨rfl, by simp [installed_events, installed_ns, Obj.get_set_self]⟩
  unfold NotifiesOnce _import
  simp only
  cases hp : prepare typed name value options with
  | error e => exact Or.inr (Or.inr ⟨e, rfl, rfl⟩)
  | ok v =>
    simp only
    by_cases hd : (isTypedFunction (math.ns.get name) && isTypedFunction v) = true
    · simp only [hd, if_true]
      cases hr : (if options.override = true then typed.create name (signaturesOf v)
          else typed.merge (math.ns.get name) v) with
      | error e => exact Or.inr (Or.inr ⟨e, rfl, rfl⟩)
      | ok w => exact Or.inl (key w)
    · simp only [hd]
      by_cases hi : (math.ns.get name == .undefined || options.override) = true
      · simp only [hi, if_true]
        exact Or.inl (key v)
      · simp only [hi]
        cases hs : options.silent
        · exact Or.inr (Or.inr
            ⟨.error ("Cannot import \"" ++ name ++ "\": already exists"), by simp, by simp⟩)
        · exact Or.inr (Or.inl ⟨by simp, by simp⟩)

/-- C5 (witness): importing `myvalue: 42` into the fresh instance emits one notification. -/
theorem C5_notifies_once_witness :
    Intact createCore.math ∧ NotifiesOnce specTyped "myvalue" (.num 42) {} createCore.math :=
  ⟨by decide,
    C5_notifies_once specTyped createCore.math "myvalue" (.num 42) {} (by decide) (by decide)
      (by decide)⟩

/-- C5 (counterexample). Overriding the entry `emit` of the fresh instance with 42 stores the
value and then throws at `math.emit(...)`: a value was installed, no notification was emitted,
and the instance is not as it was. -/
theorem C5_counterexample :
    ¬ NotifiesOnce specTyped "emit" (.num 42) { override := true } createCore.math := by
  intro hn
  simp only [NotifiesOnce] at hn
  rcases hn with ⟨h₁, _⟩ | ⟨h₁, _⟩ | ⟨_, _, h₂⟩
  · exact absurd h₁ (by decide)
  · exact absurd h₁ (by decide)
  · exact absurd h₂ (by decide)

/-! ## Claims on merging typed-functions -/

theorem lookup_isSome_iff (l : List (String × Nat)) (k : String) :
    (l.lookup k).isSome = true ↔ k ∈ l.map Prod.fst := by
  induction l with
  | nil => simp [List.lookup]
  | cons p rest ih =>
    obtain ⟨k', i⟩ := p
    by_cases hk : k = k'
    · subst hk; simp [List.lookup]
    · have hb : (k == k') = false := by simpa using hk
      simp [List.lookup, hb, ih, hk]

theorem lookup_append_left (l₁ l₂ : List (String × Nat)) {k : String} {i : Nat}
    (h : l₁.lookup k = some i) : (l₁ ++ l₂).lookup k = some i := by
  induction l₁ with
  | nil => simp [List.lookup] at h
  | cons p rest ih =>
    obtain ⟨k', j⟩ := p
    by_cases hk : (k == k') = true
    · simp only [List.cons_append, List.lookup, hk] at h ⊢; exact h
    · have hb : (k == k') = false := by simpa using hk
      simp only [List.cons_append, List.lookup, hb] at h ⊢; exact ih h

theorem lookup_append_right (l₁ l₂ : List (String × Nat)) {k : String}
    (h : k ∉ l₁.map Prod.fst) : (l₁ ++ l₂).lookup k = l₂.lookup k := by
  induction l₁ with
  | nil => rfl
  | cons p rest ih =>
    obtain ⟨k', j⟩ := p
    have hk : k ≠ k' := fun e => h (by simp [e])
    have hb : (k == k') = false := by simpa using hk
    have hr : k ∉ rest.map Prod.fst := fun e => h (by simp at e ⊢; exact Or.inr e)
    simp only [List.cons_append, List.lookup, hb]; exact ih hr

/-- Two tables without a common signature merge in the model of `typed`. -/
theorem specTyped_merge_disjoint (na nb : String) (sa sb : List (String × Nat))
    (ta tb : TransformProp) (hdis : ∀ s, s ∈ sa.map Prod.fst → s ∉ sb.map Prod.fst) :
    specTyped.merge (.typed na sa ta) (.typed nb sb tb) = .ok (.typed na (sa ++ sb) .absent) := by
  have hany : (sa.any fun p => (sb.lookup p.1).isSome) = false := by
    rw [Bool.eq_false_iff]
    intro hc
    rw [List.any_eq_true] at hc
    obtain ⟨p, hp, hs⟩ := hc
    exact hdis p.1 (List.mem_map_of_mem _ hp) ((lookup_isSome_iff sb p.1).1 hs)
  simp [specTyped, signaturesOf, hany]

/-- C6 (amended). With the dispatch-table builder as the spec describes it: when the entry of
the name and the incoming value are both typed-functions, `override` is not set and `wrap`
is not set, `_import` installs the merge `typed(existing, incoming)`; for tables without a
common signature the import ends normally, the signatures of the installed table are exactly
those of either table, and every signature of either table keeps its implementation. -/
theorem C6_merges_tables (math : Math) (name na nb : String) (sa sb : List (String × Nat))
    (ta tb : TransformProp) (options : Options) (h : Intact math)
    (hex : math.ns.get name = .typed na sa ta)
    (ho : options.override = false) (hw : options.wrap = false)
    (hdis : ∀ s, s ∈ sa.map Prod.fst → s ∉ sb.map Prod.fst) :
    let out := _import specTyped name (.typed nb sb tb) options math
    out.completion = .normal ∧
    specTyped.merge (math.ns.get name) (.typed nb sb tb) = .ok (out.math.ns.get name) ∧
    (∀ s, s ∈ (signaturesOf (out.math.ns.get name)).map Prod.fst ↔
      s ∈ sa.map Prod.fst ∨ s ∈ sb.map Prod.fst) ∧
    (∀ s i, sa.lookup s = some i → (signaturesOf (out.math.ns.get name)).lookup s = some i) ∧
    (∀ s i, sb.lookup s = some i → (signaturesOf (out.math.ns.get name)).lookup s = some i) := by
  have hk := ne_kernel_of_typed h name (by rw [hex]; rfl)
  have hp : prepare specTyped name (.typed nb sb tb) options = .ok (.typed nb sb tb) := by
    simp [prepare, hw]
  have hm := specTyped_merge_disjoint na nb sa sb ta tb hdis
  have hout : _import specTyped name (.typed nb sb tb) options math
      = ⟨installed name (.typed na (sa ++ sb) .absent) math, .normal⟩ := by
    unfold _import
    simp only [hp, hex, isTypedFunction, Bool.and_self, if_true, ho, hm]
    simpa using install_eq h name _ hk.1 hk.2
  intro out
  have hent : out.math.ns.get name = .typed na (sa ++ sb) .absent := by
    show (_import specTyped name (.typed nb sb tb) options math).math.ns.get name = _
    rw [hout]; simp [installed_ns, Obj.get_set_self]
  have hc : out.completion = .normal := by
    show (_import specTyped name (.typed nb sb tb) options math).completion = _
    rw [hout]
  rw [hent, hex]
  refine ⟨hc, hm, fun s => by simp [signaturesOf], fun s i hs => lookup_append_left sa sb hs,
    fun s i hs => ?_⟩
  show (sa ++ sb).lookup s = some i
  rw [lookup_append_right sa sb]
  · exact hs
  · intro hc
    exact hdis s hc ((lookup_isSome_iff sb s).1 (by simp [hs]))

/-- C6 (witness): `add` for `string` merged into the table `add` for `number`. -/
theorem C6_merges_tables_witness :
    Intact coreWithAdd ∧ coreWithAdd.ns.get "add" = .typed "add" [("number", 20)] .absent ∧
    signaturesOf ((_import specTyped "add" (.typed "add" [("string", 21)] .absent) {}
      coreWithAdd).math.ns.get "add") = [("number", 20), ("string", 21)] ∧
    (signaturesOf ((_import specTyped "add" (.typed "add" [("string", 21)] .absent) {}
      coreWithAdd).math.ns.get "add")).lookup "string" = some 21 :=
  ⟨by decide, by decide, by decide,
    (C6_merges_tables coreWithAdd "add" "add" "add" [("number", 20)] [("string", 21)] .absent
      .absent {} (by decide) (by decide) rfl rfl (by decide)).2.2.2.2 "string" 21 (by decide)⟩

/-- C6 (counterexample). Entry and incoming value are both typed-functions and `override` is
not set, but `wrap` is: the incoming table is wrapped into a plain function first, nothing
is merged and the import throws. -/
theorem C6_counterexample :
    isTypedFunction (coreWithAdd.ns.get "add") = true ∧
    isTypedFunction (.typed "add" [("string", 21)] .absent) = true ∧
    _import specTyped "add" (.typed "add" [("string", 21)] .absent) { wrap := true } coreWithAdd
      = ⟨coreWithAdd, .throws (.error "Cannot import \"add\": already exists")⟩ := by
  decide

/-- C7 (amended). When the entry of the name and the incoming value are both typed-functions,
`override` is requested and `wrap` is not set, `_import` installs
`typed(name, incoming.signatures)`, built from the incoming table alone: with the
dispatch-table builder as the spec describes it, the installed table holds exactly the
signatures of the incoming table with the incoming implementations, and no signature that only
the existing table had. -/
theorem C7_override_replaces_table (typed : TypedEngine) (math : Math) (name na nb : String)
    (sa sb : List (String × Nat)) (ta tb : TransformProp) (options : Options)
    (h : Intact math) (hex : math.ns.get name = .typed na sa ta)
    (ho : options.override = true) (hw : options.wrap = false) :
    (∀ v, typed.create name sb = .ok v →
      (_import typed name (.typed nb sb tb) options math).completion = .normal ∧
      (_import typed name (.typed nb sb tb) options math).math.ns.get name = v) ∧
    (∀ e, typed.create name sb = .error e →
      _import typed name (.typed nb sb tb) options math = ⟨math, .throws e⟩) ∧
    signaturesOf ((_import specTyped name (.typed nb sb tb) options math).math.ns.get name)
      = sb := by
  have hk := ne_kernel_of_typed h name (by rw [hex]; rfl)
  have hp : ∀ t : TypedEngine,
      prepare t name (.typed nb sb tb) options = .ok (.typed nb sb tb) := by
    intro t; simp [prepare, hw]
  have hok : ∀ (t : TypedEngine) v, t.create name sb = .ok v →
      _import t name (.typed nb sb tb) options math = ⟨installed name v math, .normal⟩ := by
    intro t v hc
    unfold _import
    simp only [hp t, hex, isTypedFunction, Bool.and_self, if_true, ho, signaturesOf, hc]
    simpa using install_eq h name _ hk.1 hk.2
  refine ⟨fun v hc => ?_, fun e hc => ?_, ?_⟩
  · rw [hok typed v hc]
    exact ⟨rfl, by simp [installed_ns, Obj.get_set_self]⟩
  · unfold _import
    simp [hp typed, hex, isTypedFunction, ho, signaturesOf, hc]
  · rw [hok specTyped (.typed name sb .absent) rfl]
    simp [installed_ns, Obj.get_set_self, signaturesOf]

/-- C7 (witness): overriding the table `add` for `number` with a table for `string`. -/
theorem C7_override_replaces_table_witness :
    Intact coreWithAdd ∧ coreWithAdd.ns.get "add" = .typed "add" [("number", 20)] .absent ∧
    signaturesOf ((_import specTyped "add" (.typed "add" [("string", 21)] .absent)
      { override := true } coreWithAdd).math.ns.get "add") = [("string", 21)] :=
  ⟨by decide, by decide,
    (C7_override_replaces_table specTyped coreWithAdd "add" "add" "add" [("number", 20)]
      [("string", 21)] .absent .absent { override := true } (by decide) (by decide) rfl
      rfl).2.2⟩

/-- C7 (counterexample). The existing table `add` has the signature `number` only, the
incoming table the signature `string` only; after the import with `override: true` the
installed table has no implementation for `number`. -/
theorem C7_counterexample :
    (signaturesOf (coreWithAdd.ns.get "add")).lookup "number" = some 20 ∧
    (signaturesOf (.typed "add" [("string", 21)] .absent)).lookup "number" = none ∧
    (_import specTyped "add" (.typed "add" [("string", 21)] .absent) { override := true }
      coreWithAdd).completion = .normal ∧
    (signaturesOf ((_import specTyped "add" (.typed "add" [("string", 21)] .absent)
      { override := true } coreWithAdd).math.ns.get "add")).lookup "number" = none := by
  decide

/-! ## Lemmas on `load` -/

mutual
theorem load_untouched (i : Nat) : ∀ (u : Loadable) (c : Core), i ∉ unitIds u →
    Untouched i c (load u c).2
  | .factory f, c, h => by
    have hi : f.id ≠ i := fun e => h (by simp [unitIds, e])
    simp [load, Untouched, List.count_singleton, hi]
  | .firstProperty f, c, h => by
    have hi : f.id ≠ i := fun e => h (by simp [unitIds, e])
    simp [load, Untouched, List.count_singleton, hi]
  | .object, c, _ => by simp [load, Untouched]
  | .legacy id n m loads fac, c, h => by
    have hi : id ≠ i := fun e => h (by simp [unitIds, e])
    have hl : i ∉ unitIdsAll loads := fun e => h (by simp [unitIds, e])
    have hcount : List.count i [id] = 0 := by simp [List.count_singleton, hi]
    rcases hL : loadAll loads { c with invoked := c.invoked ++ [id] } with ⟨r, c'⟩
    have ih : Untouched i c c' := by
      have := loadAll_untouched i loads { c with invoked := c.invoked ++ [id] } hl
      simpa [hL, Untouched, hcount] using this
    simp only [load]
    split
    · simp only [hL]
      cases r with
      | error e => exact ih
      | ok vs =>
        simp only
        cases fac (if m = true then some c'.math else none) vs with
        | error e => exact ih
        | ok inst =>
          refine ⟨?_, ih.2⟩
          show i ∈ c'.legacyFactories ++ [id] ↔ _
          rw [← ih.1, List.mem_append, List.mem_singleton]
          exact ⟨fun h' => h'.resolve_right (fun e => hi e.symm), Or.inl⟩
    · exact ⟨Iff.rfl, rfl⟩
theorem loadAll_untouched (i : Nat) : ∀ (us : List Loadable) (c : Core), i ∉ unitIdsAll us →
    Untouched i c (loadAll us c).2
  | [], c, _ => by simp [loadAll, Untouched]
  | u :: us, c, h => by
    have hu : i ∉ unitIds u := fun e => h (by simp [unitIdsAll, e])
    have hus : i ∉ unitIdsAll us := fun e => h (by simp [unitIdsAll, e])
    rcases hL : load u c with ⟨r, c'⟩
    have ih₁ : Untouched i c c' := by simpa [hL] using load_untouched i u c hu
    cases r with
    | error e => simpa [loadAll, hL] using ih₁
    | ok v =>
      rcases hL' : loadAll us c' with ⟨r', c''⟩
      have ih₂ : Untouched i c' c'' := by simpa [hL'] using loadAll_untouched i us c' hus
      have : Untouched i c c'' := ⟨ih₂.1.trans ih₁.1, ih₂.2.trans ih₁.2⟩
      cases r' <;> simpa [loadAll, hL, hL'] using this
end

theorem Extends.refl (c : Core) : Extends c c := ⟨id, ⟨[], by simp⟩, rfl, rfl⟩

theorem Extends.trans {a b c : Core} (h₁ : Extends a b) (h₂ : Extends b c) : Extends a c := by
  obtain ⟨w₁, ⟨r₁, e₁⟩, m₁, f₁⟩ := h₁
  obtain ⟨w₂, ⟨r₂, e₂⟩, m₂, f₂⟩ := h₂
  exact ⟨fun h => w₂ (w₁ h), ⟨r₁ ++ r₂, by rw [e₂, e₁, List.append_assoc]⟩, m₂.trans m₁,
    f₂.trans f₁⟩

mutual
theorem load_extends : ∀ (u : Loadable) (c : Core), Extends c (load u c).2
  | .factory f, c => by
    exact ⟨id, ⟨[f.id], rfl⟩, rfl, rfl⟩
  | .firstProperty f, c => by
    exact ⟨id, ⟨[f.id], rfl⟩, rfl, rfl⟩
  | .object, c => Extends.refl c
  | .legacy id n m loads fac, c => by
    rcases hL : loadAll loads { c with invoked := c.invoked ++ [id] } with ⟨r, c'⟩
    have h₀ : Extends c { c with invoked := c.invoked ++ [id] } :=
      ⟨fun h => h, ⟨[id], rfl⟩, rfl, rfl⟩
    have ih : Extends c c' := by
      have := loadAll_extends loads { c with invoked := c.invoked ++ [id] }
      rw [hL] at this
      exact h₀.trans this
    simp only [load]
    split
    · simp only [hL]
      cases r with
      | error e => exact ih
      | ok vs =>
        simp only
        cases fac (if m = true then some c'.math else none) vs with
        | error e => exact ih
        | ok inst =>
          obtain ⟨w, e, hm, hf⟩ := ih
          exact ⟨fun h => by simp [w h], e, hm, hf⟩
    · exact Extends.refl c
theorem loadAll_extends : ∀ (us : List Loadable) (c : Core), Extends c (loadAll us c).2
  | [], c => Extends.refl c
  | u :: us, c => by
    rcases hL : load u c with ⟨r, c'⟩
    have ih₁ : Extends c c' := by simpa [hL] using load_extends u c
    cases r with
    | error e => simpa [loadAll, hL] using ih₁
    | ok v =>
      rcases hL' : loadAll us c' with ⟨r', c''⟩
      have ih₂ : Extends c' c'' := by simpa [hL'] using loadAll_extends us c'
      cases r' <;> simpa [loadAll, hL, hL'] using ih₁.trans ih₂
end

/-- A legacy unit that is in the cache is answered from the cache. -/
theorem load_cached (id : Nat) (n : Option String) (m : Bool) (loads : List Loadable)
    (fac : Option Math → List Value → Except JsError Value) (c : Core)
    (h : id ∈ c.legacyFactories) :
    load (.legacy id n m loads fac) c
      = (.ok (c.legacyInstances.getD (c.legacyFactories.indexOf id) .undefined), c) := by
  have : c.legacyFactories.indexOf id ≠ c.legacyFactories.length := by
    rw [Ne, List.indexOf_eq_length]; exact fun hc => hc h
  simp [load, this]

/-- A first load that returns, of a legacy unit that is not in the cache and is not loaded by
its own body: the body ran once and its instance is now the cached one. -/
theorem load_fresh (id : Nat) (n : Option String) (m : Bool) (loads : List Loadable)
    (fac : Option Math → List Value → Except JsError Value) (c c₁ : Core) (v : Value)
    (hwf : c.legacyFactories.length = c.legacyInstances.length)
    (hfresh : id ∉ c.legacyFactories) (hacyc : id ∉ unitIdsAll loads)
    (h₁ : load (.legacy id n m loads fac) c = (.ok v, c₁)) :
    id ∈ c₁.legacyFactories ∧
    c₁.legacyInstances.getD (c₁.legacyFactories.indexOf id) .undefined = v ∧
    c₁.invoked.count id = c.invoked.count id + 1 := by
  have hidx : c.legacyFactories.indexOf id = c.legacyFactories.length :=
    List.indexOf_eq_length.2 hfresh
  rcases hL : loadAll loads { c with invoked := c.invoked ++ [id] } with ⟨r, c'⟩
  have hu := loadAll_untouched id loads { c with invoked := c.invoked ++ [id] } hacyc
  have he := loadAll_extends loads { c with invoked := c.invoked ++ [id] }
  rw [hL] at hu he
  obtain ⟨hmem, hcount⟩ := hu
  have hwf' : c'.legacyFactories.length = c'.legacyInstances.length := he.1 hwf
  have hnot : id ∉ c'.legacyFactories := fun hc => hfresh (hmem.1 hc)
  simp only [load, hidx, if_true, hL] at h₁
  cases r with
  | error e => simp at h₁
  | ok vs =>
    simp only at h₁
    cases hf : fac (if m = true then some c'.math else none) vs with
    | error e => simp [hf] at h₁
    | ok inst =>
      simp only [hf, Prod.mk.injEq, Except.ok.injEq] at h₁
      obtain ⟨rfl, rfl⟩ := h₁
      refine ⟨by simp, ?_, ?_⟩
      · simp only
        rw [List.indexOf_append_of_not_mem hnot, List.indexOf_cons_self, Nat.add_zero, hwf',
          List.getD_append_right _ _ _ _ (le_refl _)]
        simp
      · simpa using hcount

/-- A legacy unit that is not in the cache has its body started by `load`. -/
theorem load_fresh_invoked (id : Nat) (n : Option String) (m : Bool) (loads : List Loadable)
    (fac : Option Math → List Value → Except JsError Value) (c : Core)
    (hfresh : id ∉ c.legacyFactories) :
    ∃ rest, (load (.legacy id n m loads fac) c).2.invoked = c.invoked ++ id :: rest := by
  have hidx : c.legacyFactories.indexOf id = c.legacyFactories.length :=
    List.indexOf_eq_length.2 hfresh
  rcases hL : loadAll loads { c with invoked := c.invoked ++ [id] } with ⟨r, c'⟩
  have he := loadAll_extends loads { c with invoked := c.invoked ++ [id] }
  rw [hL] at he
  obtain ⟨rest, hr⟩ := he.2.1
  refine ⟨rest, ?_⟩
  have hr' : c'.invoked = c.invoked ++ id :: rest := by simpa using hr
  simp only [load, hidx, if_true, hL]
  cases r with
  | error e => exact hr'
  | ok vs =>
    simp only
    cases fac (if m = true then some c'.math else none) vs <;> exact hr'

/-! ## Claims on `load` and the `config` listener -/

/-- C8 (the code at the failing input). `factories` is the empty object of core.js:228 in every
state, since `importFactory` is not given it and nothing else writes to it; the listener
of `config` therefore imports nothing again, whatever `math.import` does and whatever was
imported before. -/
theorem C8_config_listener_imports_nothing
    (importAgain : Factory → Options → Core → Core) (math : Math)
    (legacyFactories : List Nat) (legacyInstances : List Value) (invoked : List Nat) :
    createCore.factories = [] ∧
    configListener importAgain ⟨math, legacyFactories, legacyInstances, [], invoked⟩
      = ⟨math, legacyFactories, legacyInstances, [], invoked⟩ :=
  ⟨rfl, rfl⟩

/-- C9 (amended). For a legacy unit whose creation body does not load the unit itself, in an
instance whose two cache arrays are in step: when a first call of `load` returns an
instance, a second call with the same unit returns the same instance and changes nothing,
so that no creation body runs; over both calls the body of the unit ran exactly once if the
unit was not cached before, and not at all if it was. The cache is keyed by identity: a
legacy unit of the same name and another identity, not cached before and not loaded by the
body of the first, has its own body run when it is loaded next. -/
theorem C9_load_legacy_once (id : Nat) (name : Option String) (m : Bool)
    (loads : List Loadable) (fac : Option Math → List Value → Except JsError Value)
    (c c₁ : Core) (v : Value)
    (hwf : c.legacyFactories.length = c.legacyInstances.length)
    (hacyc : id ∉ unitIdsAll loads)
    (h₁ : load (.legacy id name m loads fac) c = (.ok v, c₁)) :
    load (.legacy id name m loads fac) c₁ = (.ok v, c₁) ∧
    c₁.invoked.count id = c.invoked.count id + (if id ∈ c.legacyFactories then 0 else 1) ∧
    (∀ (id₂ : Nat) (m₂ : Bool) (loads₂ : List Loadable)
        (fac₂ : Option Math → List Value → Except JsError Value),
      id₂ ≠ id → id₂ ∉ c.legacyFactories → id₂ ∉ unitIdsAll loads →
      ∃ rest, (load (.legacy id₂ name m₂ loads₂ fac₂) c₁).2.invoked
        = c₁.invoked ++ id₂ :: rest) := by
  have hother : ∀ id₂ : Nat, id₂ ≠ id → id₂ ∉ c.legacyFactories → id₂ ∉ unitIdsAll loads →
      id₂ ∉ c₁.legacyFactories := by
    intro id₂ hne hn hl
    have hu := load_untouched id₂ (.legacy id name m loads fac) c
      (by simp [unitIds, hne, hl])
    rw [h₁] at hu
    exact fun hc => hn (hu.1.1 hc)
  refine ⟨?_, ?_, fun id₂ m₂ loads₂ fac₂ hne hn hl =>
    load_fresh_invoked id₂ name m₂ loads₂ fac₂ c₁ (hother id₂ hne hn hl)⟩
  · by_cases hc : id ∈ c.legacyFactories
    · have h₂ := load_cached id name m loads fac c hc
      rw [h₁] at h₂
      simp only [Prod.mk.injEq, Except.ok.injEq] at h₂
      obtain ⟨hv, hcc⟩ := h₂
      subst hcc
      rw [load_cached id name m loads fac c₁ hc, hv]
    · obtain ⟨hin, hget, _⟩ := load_fresh id name m loads fac c c₁ v hwf hc hacyc h₁
      rw [load_cached id name m loads fac c₁ hin, hget]
  · by_cases hc : id ∈ c.legacyFactories
    · have h₂ := load_cached id name m loads fac c hc
      rw [h₁] at h₂
      simp only [Prod.mk.injEq, Except.ok.injEq] at h₂
      rw [h₂.2]; simp [hc]
    · rw [(load_fresh id name m loads fac c c₁ v hwf hc hacyc h₁).2.2]; simp [hc]

/-- C9 (witness): a legacy unit `x` of identity 30 whose body loads a unit of identity 31,
loaded twice into the fresh instance. -/
theorem C9_load_legacy_once_witness :
    load (.legacy 30 (some "x") false
        [.legacy 31 (some "y") true [] (fun _ _ => .ok (.num 1))]
        (fun _ vs => .ok (vs.getD 0 .null)))
      (load (.legacy 30 (some "x") false
        [.legacy 31 (some "y") true [] (fun _ _ => .ok (.num 1))]
        (fun _ vs => .ok (vs.getD 0 .null))) createCore).2
      = (.ok (.num 1), (load (.legacy 30 (some "x") false
        [.legacy 31 (some "y") true [] (fun _ _ => .ok (.num 1))]
        (fun _ vs => .ok (vs.getD 0 .null))) createCore).2) ∧
    (load (.legacy 30 (some "x") false
        [.legacy 31 (some "y") true [] (fun _ _ => .ok (.num 1))]
        (fun _ vs => .ok (vs.getD 0 .null))) createCore).2.invoked.count 30 = 1 :=
  have w := C9_load_legacy_once 30 (some "x") false
    [.legacy 31 (some "y") true [] (fun _ _ => .ok (.num 1))]
    (fun _ vs => .ok (vs.getD 0 .null)) createCore _ (.num 1) rfl (by decide) rfl
  ⟨w.1, w.2.1⟩

/-- C9 (counterexample). The creation body of the legacy unit `x` of identity 30 throws.
The first `load` of the unit throws and caches nothing, so the second `load` of the same
unit runs the body again and throws again: the body was invoked twice and no instance
was returned. -/
theorem C9_counterexample :
    (load (.legacy 30 (some "x") false [] (fun _ _ => .error (.error "no instance")))
      createCore).1 = .error (.error "no instance") ∧
    (load (.legacy 30 (some "x") false [] (fun _ _ => .error (.error "no instance")))
      createCore).2.legacyFactories = [] ∧
    (load (.legacy 30 (some "x") false [] (fun _ _ => .error (.error "no instance")))
      (load (.legacy 30 (some "x") false [] (fun _ _ => .error (.error "no instance")))
        createCore).2).1 = .error (.error "no instance") ∧
    (load (.legacy 30 (some "x") false [] (fun _ _ => .error (.error "no instance")))
      (load (.legacy 30 (some "x") false [] (fun _ _ => .error (.error "no instance")))
        createCore).2).2.invoked = [30, 30] :=
  ⟨rfl, rfl, rfl, rfl⟩

/-- C10 (the code at the failing input). `load` answers a modern factory with `factory(math)`
(core.js:192-194): each call runs the creation body, and nothing is read from or added to
the cache; after two calls the body has run twice. -/
theorem C10_load_modern_runs_body_again (f : Factory) (c : Core) :
    (load (.factory f) (load (.factory f) c).2).2.invoked = c.invoked ++ [f.id, f.id] ∧
    (load (.factory f) (load (.factory f) c).2).2.legacyFactories = c.legacyFactories ∧
    (load (.factory f) (load (.factory f) c).2).2.legacyInstances = c.legacyInstances := by
  simp [load]

/-! ## Claims on the transform maps -/

theorem Obj.lookup_delete_self (o : Obj) (k : String) : (o.delete k).lookup k = none := by
  induction o with
  | nil => rfl
  | cons p rest ih =>
    obtain ⟨k', v'⟩ := p
    by_cases hk : k' = k
    · subst hk
      simpa [Obj.delete, List.filter] using ih
    · have hb : (k == k') = false := by simpa using fun e => hk e.symm
      have hn : (k' != k) = true := by simpa using hk
      simp only [Obj.delete, List.filter, hn, List.lookup, hb]
      simpa [Obj.delete] using ih

/-- What a call of `_import` can do when the kernel members are intact: install some value,
or leave the instance as it was. -/
theorem _import_cases (typed : TypedEngine) (math : Math) (name : String) (value : Value)
    (options : Options) (h : Intact math) (he : name ≠ "expression") (hm : name ≠ "emit") :
    (∃ w, _import typed name value options math = ⟨installed name w math, .normal⟩) ∨
    (_import typed name value options math).math = math := by
  unfold _import
  cases hp : prepare typed name value options with
  | error e => exact Or.inr rfl
  | ok v =>
    simp only
    by_cases hd : (isTypedFunction (math.ns.get name) && isTypedFunction v) = true
    · simp only [hd, if_true]
      cases hr : (if options.override = true then typed.create name (signaturesOf v)
          else typed.merge (math.ns.get name) v) with
      | error e => exact Or.inr rfl
      | ok w => exact Or.inl ⟨w, install_eq h name w he hm⟩
    · simp only [hd]
      by_cases hi : (math.ns.get name == .undefined || options.override) = true
      · simp only [hi, if_true]
        exact Or.inl ⟨v, install_eq h name v he hm⟩
      · simp only [hi]
        cases hs : options.silent <;> exact Or.inr (by simp)

/-- An import whose notification was emitted installed the value the notification carries. -/
theorem _import_of_notified (typed : TypedEngine) (math : Math) (name : String)
    (value v : Value) (options : Options) (h : Intact math)
    (he : name ≠ "expression") (hm : name ≠ "emit")
    (hE : (_import typed name value options math).math.events
      = math.events ++ [⟨"import", name, .returns v, none⟩]) :
    _import typed name value options math = ⟨installed name v math, .normal⟩ := by
  rcases _import_cases typed math name value options h he hm with ⟨w, hw⟩ | hsame
  · rw [hw] at hE ⊢
    rw [installed_events] at hE
    have := List.append_cancel_left hE
    simp only [List.cons.injEq, Event.mk.injEq, Resolver.returns.injEq, and_true,
      true_and] at this
    rw [this]
  · rw [hsame] at hE
    have := congrArg List.length hE
    simp at this

theorem transformed_of_no_transform (name : String) (v : Value) (math : Math)
    (hv : (v.truthy && v.transformProp.isFunction) = false) :
    transformed name v math =
      { math with
        transform := math.transform.delete name
        mathWithTransform :=
          if allowedInExpressions name then math.mathWithTransform.set name v
          else math.mathWithTransform } := by
  unfold transformed
  split
  · rename_i ht hf
    simp [ht, hf, TransformProp.isFunction] at hv
  · rfl

theorem transformed_of_transform (name : String) (v : Value) (math : Math) (g : Nat)
    (ht : v.truthy = true) (hg : v.transformProp = .function g) :
    transformed name v math =
      { math with
        transform := math.transform.set name (.func g none .absent)
        mathWithTransform :=
          if allowedInExpressions name then
            math.mathWithTransform.set name (.func g none .absent)
          else math.mathWithTransform } := by
  unfold transformed
  simp [ht, hg]

/-- A value with a function under `transform` is an object or a function, hence truthy. -/
theorem truthy_of_transform {v : Value} {g : Nat} (hg : v.transformProp = .function g) :
    v.truthy = true := by
  cases v <;> simp_all [Value.transformProp, Value.truthy]

/-- C13 (amended). In an instance whose kernel members are intact and for a name other than
`expression`, `emit` and `__proto__`: when a plain-value import is successful, that is when
its notification is emitted, and the value it stored (the value the notification carries:
the incoming value, its wrapper, or the typed-function made or merged from it) carries no
transform function, then the import ended normally, the namespace holds the stored value, the
restricted surface holds the stored value under the name when the name is allowed and is left
unchanged when the name is disallowed, and the transform mapping has no entry for the name.
The name `__proto__` is left out: the writes of import.js:136 and 159 go to the accessor
that the two objects inherit, not to an entry. -/
theorem C13_mirrors_stored_value (typed : TypedEngine) (math : Math) (name : String)
    (value v : Value) (options : Options) (h : Intact math)
    (he : name ≠ "expression") (hm : name ≠ "emit") (_ : name ≠ "__proto__")
    (hE : (_import typed name value options math).math.events
      = math.events ++ [⟨"import", name, .returns v, none⟩])
    (hv : (v.truthy && v.transformProp.isFunction) = false) :
    (_import typed name value options math).completion = .normal ∧
    (_import typed name value options math).math.ns.get name = v ∧
    (allowedInExpressions name = true →
      (_import typed name value options math).math.mathWithTransform.get name = v) ∧
    (allowedInExpressions name = false →
      (_import typed name value options math).math.mathWithTransform
        = math.mathWithTransform) ∧
    (_import typed name value options math).math.transform.lookup name = none := by
  rw [_import_of_notified typed math name value v options h he hm hE]
  simp only [installed, transformed_of_no_transform name v _ hv]
  refine ⟨trivial, Obj.get_set_self _ _ _, fun ha => ?_, fun ha => ?_,
    Obj.lookup_delete_self _ _⟩
  · simp [ha, Obj.get_set_self]
  · simp [ha]

/-- C13 (witness): importing `myvalue: 42` into the fresh instance. -/
theorem C13_mirrors_stored_value_witness :
    Intact createCore.math ∧
    (_import specTyped "myvalue" (.num 42) {} createCore.math).math.mathWithTransform.get
      "myvalue" = .num 42 ∧
    (_import specTyped "myvalue" (.num 42) {} createCore.math).math.transform.lookup "myvalue"
      = none :=
  have w := C13_mirrors_stored_value specTyped createCore.math "myvalue" (.num 42) (.num 42) {}
    (by decide) (by decide) (by decide) (by decide) (by decide) (by decide)
  ⟨by decide, w.2.2.1 (by decide), w.2.2.2.2⟩

/-- C13 (counterexample). A plain function without transform that carries the signature
`number` is imported successfully under the allowed name `f`: the restricted surface holds
a typed-function under `f`, not the value that was imported. -/
theorem C13_counterexample :
    allowedInExpressions "f" = true ∧
    (Value.func 10 (some "number") .absent).transformProp.isFunction = false ∧
    (_import specTyped "f" (.func 10 (some "number") .absent) {} createCore.math).completion
      = .normal ∧
    (_import specTyped "f" (.func 10 (some "number") .absent) {}
      createCore.math).math.mathWithTransform.get "f" = .typed "f" [("number", 10)] .absent ∧
    (_import specTyped "f" (.func 10 (some "number") .absent) {}
      createCore.math).math.mathWithTransform.get "f" ≠ .func 10 (some "number") .absent := by
  decide

/-- C14 (amended). In an instance whose kernel members are intact and for a name other than
`expression` and `emit`: when a plain-value import is successful, that is when its
notification is emitted, and the value it stored (the incoming value itself, or its wrapper
when `wrap` is set) has a function under `transform`, then the import ended normally, the
namespace holds the stored value, the transform mapping holds that function under the name,
and the restricted surface holds that function rather than the stored value when the name is
allowed and is left unchanged when it is not. -/
theorem C14_exposes_transform (typed : TypedEngine) (math : Math) (name : String)
    (value v : Value) (options : Options) (g : Nat) (h : Intact math)
    (he : name ≠ "expression") (hm : name ≠ "emit")
    (hE : (_import typed name value options math).math.events
      = math.events ++ [⟨"import", name, .returns v, none⟩])
    (hg : v.transformProp = .function g) :
    (_import typed name value options math).completion = .normal ∧
    (_import typed name value options math).math.ns.get name = v ∧
    (_import typed name value options math).math.transform.get name = .func g none .absent ∧
    (allowedInExpressions name = true →
      (_import typed name value options math).math.mathWithTransform.get name
        = .func g none .absent) ∧
    (allowedInExpressions name = false →
      (_import typed name value options math).math.mathWithTransform
        = math.mathWithTransform) := by
  rw [_import_of_notified typed math name value v options h he hm hE]
  simp only [installed, transformed_of_transform name v _ g (truthy_of_transform hg) hg]
  refine ⟨trivial, Obj.get_set_self _ _ _, Obj.get_set_self _ _ _, fun ha => ?_,
    fun ha => ?_⟩
  · simp [ha, Obj.get_set_self]
  · simp [ha]

/-- C14 (witness): importing a function of identity 10 whose `transform` is the function of
identity 11 under the name `f`. -/
theorem C14_exposes_transform_witness :
    Intact createCore.math ∧
    (_import specTyped "f" (.func 10 none (.function 11)) {} createCore.math).math.transform.get
      "f" = .func 11 none .absent ∧
    (_import specTyped "f" (.func 10 none (.function 11)) {}
      createCore.math).math.mathWithTransform.get "f" = .func 11 none .absent ∧
    (_import specTyped "f" (.func 10 none (.function 11)) {} createCore.math).math.ns.get "f"
      = .func 10 none (.function 11) :=
  have w := C14_exposes_transform specTyped createCore.math "f" (.func 10 none (.function 11))
    (.func 10 none (.function 11)) {} 11 (by decide) (by decide) (by decide) (by decide) rfl
  ⟨by decide, w.2.2.1, w.2.2.2.1 (by decide), w.2.1⟩

/-- C14 (counterexample). The function of identity 10 has the function of identity 11 under
`transform` and carries the signature `number`; it is imported successfully under the new
name `f`. The typed-function made from it is stored, the transform mapping has no entry
for `f`, and the restricted surface holds the typed-function, not the transform. -/
theorem C14_counterexample :
    (Value.func 10 (some "number") (.function 11)).transformProp = .function 11 ∧
    (_import specTyped "f" (.func 10 (some "number") (.function 11)) {}
      createCore.math).completion = .normal ∧
    (_import specTyped "f" (.func 10 (some "number") (.function 11)) {}
      createCore.math).math.events.length = createCore.math.events.length + 1 ∧
    (_import specTyped "f" (.func 10 (some "number") (.function 11)) {}
      createCore.math).math.transform.lookup "f" = none ∧
    (_import specTyped "f" (.func 10 (some "number") (.function 11)) {}
      createCore.math).math.mathWithTransform.get "f" = .typed "f" [("number", 10)] .absent ∧
    (_import specTyped "f" (.func 10 (some "number") (.function 11)) {}
      createCore.math).math.ns.get "f" ≠ .func 10 (some "number") (.function 11) := by
  decide

/-! ## Claims on the wrapper, on `load` of a malformed unit and on the type registry -/

theorem assignTransform_ns (name : String) (v : Value) (math : Math) :
    (assignTransform name v math).math.ns = math.ns := by
  unfold assignTransform; split <;> rfl

theorem deleteTransform_ns (name : String) (math : Math) :
    (deleteTransform name math).math.ns = math.ns := by
  unfold deleteTransform; split <;> rfl

theorem assignMathWithTransform_ns (name : String) (v : Value) (math : Math) :
    (assignMathWithTransform name v math).math.ns = math.ns := by
  unfold assignMathWithTransform; split <;> rfl

theorem emitImport_ns (name : String) (resolver : Resolver) (path : Option (List String))
    (math : Math) : (emitImport name resolver path math).math.ns = math.ns := by
  unfold emitImport; split
  · rfl
  · split <;> rfl

theorem emitImport_transform (name : String) (resolver : Resolver)
    (path : Option (List String)) (math : Math) :
    (emitImport name resolver path math).math.transform = math.transform := by
  unfold emitImport; split
  · rfl
  · split <;> rfl

/-- Nothing `_importTransform` does writes to the namespace. -/
theorem _importTransform_ns (name : String) (value : Value) (math : Math) :
    (_importTransform name value math).math.ns = math.ns := by
  unfold _importTransform
  split
  · have h := assignTransform_ns name (.func ‹Nat› none .absent) math
    split
    · rename_i m heq
      rw [heq] at h
      split
      · rw [assignMathWithTransform_ns]; exact h
      · exact h
    · exact h
  · have h := deleteTransform_ns name math
    split
    · rename_i m heq
      rw [heq] at h
      split
      · rw [assignMathWithTransform_ns]; exact h
      · exact h
    · exact h

/-- Whatever the state of the kernel members, `install` leaves the value in the namespace:
the assignment of import.js:127 and 136 comes first. -/
theorem install_ns (name : String) (value : Value) (math : Math) :
    (install name value math).math.ns = math.ns.set name value := by
  have h := _importTransform_ns name value { math with ns := math.ns.set name value }
  unfold install
  split
  · rename_i m heq
    rw [heq] at h
    rw [emitImport_ns]; exact h
  · exact h

/-- With `math.expression` intact and a name other than `expression`, `install` leaves the
transform mapping as `transformed` describes it. -/
theorem install_transform {math : Math} (h : math.ns.get "expression" = .expression)
    (name : String) (value : Value) (he : name ≠ "expression") :
    (install name value math).math.transform
      = (transformed name value { math with ns := math.ns.set name value }).transform := by
  have hx : ({ math with ns := math.ns.set name value } : Math).ns.get "expression"
      = .expression := by
    show (math.ns.set name value).get "expression" = .expression
    rw [Obj.get_set_of_ne _ _ (Ne.symm he)]; exact h
  unfold install
  rw [_importTransform_eq hx]
  simp only [emitImport_transform]

/-- With `wrap` set, a function that `_import` installs is installed as its wrapper. -/
theorem _import_wrap (typed : TypedEngine) (math : Math) (name : String) (fn : Value)
    (options : Options) (hw : options.wrap = true) (hf : fn.isFunction = true)
    (hi : math.ns.get name = .undefined ∨ options.override = true) :
    _import typed name fn options math = install name (_wrap fn) math := by
  have hd : (isTypedFunction (math.ns.get name) && isTypedFunction (_wrap fn)) = false := by
    simp [_wrap, isTypedFunction]
  have hi' : (math.ns.get name == .undefined || options.override) = true := by
    rcases hi with hi | hi <;> simp [hi]
  exact _import_install (prepare_wrap typed name hw hf) hd hi'

/-- C16. When a function `fn` is imported with `wrap: true` and is installed (the name is new
or `override` is set), the entry is the wrapper of `fn`, and calling it with any argument
list calls `fn` with a list of the same length in which every truthy argument `a` is
replaced by `a.valueOf()` and every falsy argument is passed on as it is, and returns what
`fn` returns. -/
theorem C16_wrapper_call (typed : TypedEngine) (math : Math) (name : String) (fn : Value)
    (options : Options) (apply : Value → List Value → Except JsError Value)
    (valueOf : Value → Value) (args : List Value)
    (hw : options.wrap = true) (hf : fn.isFunction = true)
    (hi : math.ns.get name = .undefined ∨ options.override = true) :
    (_import typed name fn options math).math.ns.get name = _wrap fn ∧
    ∃ passed : List Value,
      call apply valueOf ((_import typed name fn options math).math.ns.get name) args
        = call apply valueOf fn passed ∧
      passed.length = args.length ∧
      (∀ (i : Nat) (a : Value), args[i]? = some a →
        passed[i]? = some (if a.truthy = true then valueOf a else a)) := by
  have hn : (_import typed name fn options math).math.ns.get name = _wrap fn := by
    rw [_import_wrap typed math name fn options hw hf hi, install_ns, Obj.get_set_self]
  refine ⟨hn, args.map fun arg => if arg.truthy then valueOf arg else arg, ?_, by simp, ?_⟩
  · rw [hn]
    simp [_wrap, call]
  · intro i a ha
    simp [List.getElem?_map, ha]

/-- C16 (witness): `hello` imported with `wrap: true` into the fresh instance and called
with a truthy and a falsy argument; `valueOf` is taken to answer the object of identity 1
with 7. -/
theorem C16_wrapper_call_witness :
    createCore.math.ns.get "hello" = .undefined ∧
    call (fun _ args => .ok (args.getD 0 .undefined))
      (fun v => if v = .object 1 true .absent then .num 7 else v)
      ((_import specTyped "hello" (.func 10 none .absent) { wrap := true }
        createCore.math).math.ns.get "hello") [.object 1 true .absent, .num 0]
      = .ok (.num 7) :=
  have w := C16_wrapper_call specTyped createCore.math "hello" (.func 10 none .absent)
    { wrap := true } (fun _ args => .ok (args.getD 0 .undefined))
    (fun v => if v = .object 1 true .absent then .num 7 else v)
    [.object 1 true .absent, .num 0] rfl rfl (Or.inl (by decide))
  ⟨by decide, by
    obtain ⟨_, passed, hc, _, hp⟩ := w
    have h0 := hp 0 (.object 1 true .absent) rfl
    rw [hc]
    cases passed with
    | nil => simp at h0
    | cons p rest =>
      simp only [List.getElem?_cons_zero, Option.some.injEq] at h0
      subst h0
      rfl⟩

/-- C17 (amended). In an instance whose member `expression` is the one `createCore` made and
for a name other than `expression`: when a function `fn` whose `transform` is a function is
imported with `wrap: true` and is installed (the name is new or `override` is set), the
installed wrapper carries the same `transform` as `fn`, and the transform mapping holds that
function under the imported name. -/
theorem C17_wrapper_keeps_transform (typed : TypedEngine) (math : Math) (name : String)
    (fn : Value) (options : Options) (g : Nat)
    (hx : math.ns.get "expression" = .expression) (he : name ≠ "expression")
    (hw : options.wrap = true) (hf : fn.isFunction = true)
    (hg : fn.transformProp = .function g)
    (hi : math.ns.get name = .undefined ∨ options.override = true) :
    (_import typed name fn options math).math.ns.get name = _wrap fn ∧
    (_wrap fn).transformProp = fn.transformProp ∧
    (_import typed name fn options math).math.transform.get name = .func g none .absent := by
  have hwt : (_wrap fn).transformProp = .function g := by
    show (if fn.transformProp.truthy then fn.transformProp else .absent) = _
    rw [hg]; rfl
  rw [_import_wrap typed math name fn options hw hf hi, install_ns,
    install_transform hx name _ he,
    transformed_of_transform name (_wrap fn) _ g (truthy_of_transform hwt) hwt]
  exact ⟨Obj.get_set_self _ _ _, by rw [hwt, hg], Obj.get_set_self _ _ _⟩

/-- C17 (witness): a function whose `transform` is the function of identity 11, imported with
`wrap: true` under the new name `f`. -/
theorem C17_wrapper_keeps_transform_witness :
    createCore.math.ns.get "expression" = .expression ∧
    createCore.math.ns.get "f" = .undefined ∧
    (_import specTyped "f" (.func 10 none (.function 11)) { wrap := true }
      createCore.math).math.transform.get "f" = .func 11 none .absent :=
  ⟨by decide, by decide,
    (C17_wrapper_keeps_transform specTyped createCore.math "f" (.func 10 none (.function 11))
      { wrap := true } 11 (by decide) (by decide) rfl rfl rfl (Or.inl (by decide))).2.2⟩

/-- C17 (counterexample). In the instance in which `expression` holds 42, a function whose
`transform` is the function of identity 11 is imported with `wrap: true` under the new name
`f`: its wrapper is installed and carries the transform, then import.js:151 reads
`math.expression.transform` from the number and the runtime throws, and the transform
mapping holds nothing under `f`. In the fresh instance, the same function imported with
`wrap: true` and `override: true` under the name `expression` is installed as its wrapper,
the import ends normally, and the transform mapping that `createCore` made, which was
reached through the entry that is now the wrapper, holds nothing under `expression`. -/
theorem C17_counterexample :
    (mathWithExpression42.ns.get "expression" = .num 42 ∧
      mathWithExpression42.ns.get "f" = .undefined ∧
      (_import specTyped "f" (.func 10 none (.function 11)) { wrap := true }
        mathWithExpression42).math.ns.get "f" = _wrap (.func 10 none (.function 11)) ∧
      (_wrap (.func 10 none (.function 11))).transformProp = .function 11 ∧
      (_import specTyped "f" (.func 10 none (.function 11)) { wrap := true }
        mathWithExpression42).completion = .throws .runtimeTypeError ∧
      (_import specTyped "f" (.func 10 none (.function 11)) { wrap := true }
        mathWithExpression42).math.transform.lookup "f" = none) ∧
    ((_import specTyped "expression" (.func 10 none (.function 11))
        { wrap := true, override := true } createCore.math).math.ns.get "expression"
        = _wrap (.func 10 none (.function 11)) ∧
      (_import specTyped "expression" (.func 10 none (.function 11))
        { wrap := true, override := true } createCore.math).completion = .normal ∧
      (_import specTyped "expression" (.func 10 none (.function 11))
        { wrap := true, override := true } createCore.math).math.transform.lookup "expression"
        = none) := by
  decide

/-- C18. For an object that is not a modern factory, whose first own property is not a modern
factory and that is not a legacy factory, `load` throws the error
`Factory object with properties type, name, and factory expected` (with the three names in
backticks) and leaves the instance, its cache included, as it was. -/
theorem C18_load_rejects_object (c : Core) :
    load .object c =
      (.error (.error "Factory object with properties `type`, `name`, and `factory` expected"),
        c) := by
  simp [load]

/-- C20. No two descriptors of the type registry built by `createTyped` have the same name,
and no two of the one built by `createTypedLegacy`. -/
theorem C20_type_names_unique :
    (createTyped_types.map fun d => d.name).Nodup ∧
    (createTypedLegacy_types.map fun d => d.name).Nodup := by
  constructor <;> decide

/-! ## Claims on `mathImport` -/

/-- C11 (the code at the failing input). The name `myvalue` holds 42; the unit
`factory('myvalue', [], () => 1)` is imported with `silent: true` and without `override`.
The import ends normally; afterwards reading `math.myvalue` yields `undefined`, whether the
unit is installed lazily or at once, and not the value 42 that was there. -/
theorem C11_silent_unit_import_overwrites :
    envWithMyvalue.core.math.ns.get "myvalue" = .num 42 ∧
    (mathImport specTyped (.factory (myvalueUnit true)) { silent := true }
      envWithMyvalue).completion = .normal ∧
    (Env.get specTyped .root "myvalue"
      (mathImport specTyped (.factory (myvalueUnit true)) { silent := true }
        envWithMyvalue).env).1 = .ok .undefined ∧
    (mathImport specTyped (.factory (myvalueUnit false)) { silent := true }
      envWithMyvalue).completion = .normal ∧
    (Env.get specTyped .root "myvalue"
      (mathImport specTyped (.factory (myvalueUnit false)) { silent := true }
        envWithMyvalue).env).1 = .ok .undefined :=
  ⟨by decide, by decide, rfl, by decide, rfl⟩

/-- C12 (the code at the failing input). The restricted surface of the fresh instance has no
entry under a disallowed name. After `math.import({ docs: factory('foo', [], ...) })` it has
an entry under `docs`, lazily or at once: import.js:330 and 340 test the name of the unit,
`foo`, and not the name it is installed under. After
`math.import(factory('expression.transform.docs', [], ...))` it has one as well: a unit
placed in `expression.transform` is exposed whatever its name is. -/
theorem C12_disallowed_name_on_restricted_surface :
    (∀ name ∈ unsafeNames, freshEnv.has .mathWithTransform name = false) ∧
    (mathImport specTyped (.object [("docs", .factory (fooUnit true))]) {} freshEnv).env.has
      .mathWithTransform "docs" = true ∧
    (mathImport specTyped (.object [("docs", .factory (fooUnit false))]) {}
      freshEnv).env.core.math.mathWithTransform.get "docs" = .num 1 ∧
    (mathImport specTyped (.factory docsTransformUnit) {} freshEnv).env.has
      .mathWithTransform "docs" = true := by
  decide

/-- C19. For every argument that is neither a factory, a legacy factory nor an array and is
not of type `object`, `import` throws the TypeError `Factory, Object, or Array expected`
when `silent` is not set, and ends normally without any effect when `silent` is set. -/
theorem C19_import_rejects_other_values (typed : TypedEngine) (v : Value) (options : Options)
    (env : Env) (hv : v.isObject = false) :
    (options.silent = false →
      mathImport typed (.value v) options env
        = ⟨env, .throws (.typeError "Factory, Object, or Array expected")⟩) ∧
    (options.silent = true → mathImport typed (.value v) options env = ⟨env, .normal⟩) := by
  constructor <;> intro hs <;> simp [mathImport, hv, hs]

/-- C19 (witness): importing the number 5 into the fresh instance. -/
theorem C19_import_rejects_other_values_witness :
    (Value.num 5).isObject = false ∧
    mathImport specTyped (.value (.num 5)) {} freshEnv
      = ⟨freshEnv, .throws (.typeError "Factory, Object, or Array expected")⟩ ∧
    mathImport specTyped (.value (.num 5)) { silent := true } freshEnv = ⟨freshEnv, .normal⟩ :=
  ⟨rfl, (C19_import_rejects_other_values specTyped (.num 5) {} freshEnv rfl).1 rfl,
    (C19_import_rejects_other_values specTyped (.num 5) { silent := true } freshEnv rfl).2 rfl⟩

/-- Without lazy properties, reading a property is reading its resolved value. -/
theorem Env.get_of_no_pending (typed : TypedEngine) (space : Space) (name : String) (env : Env)
    (hp : env.pending = []) :
    Env.get typed space name env = (.ok ((env.data space).get name), env) := by
  simp [Env.get, Env.read, Env.thunk?, hp]

/-- Without lazy properties there is no lazy property to drop. -/
theorem Env.unpend_of_no_pending (space : Space) (name : String) (env : Env)
    (hp : env.pending = []) : env.unpend space name = env := by
  cases env
  simp only at hp
  subst hp
  rfl

/-- Installing a value under a name that is no kernel member, in an instance without lazy
properties, is the installation of `install` on the namespace state. -/
theorem installValue_of_no_pending {env : Env} (h : Intact env.core.math)
    (hp : env.pending = []) (name : String) (v : Value)
    (he : name ≠ "expression") (hm : name ≠ "emit") :
    installValue name v env = ⟨env.setMath (installed name v env.core.math), .normal⟩ := by
  unfold installValue
  simp only [install_eq h name v he hm, Env.unpend_of_no_pending _ name env hp, ite_self]

/-- One property of a map of values imported with `silent: true` and without `override`, in
an instance without lazy properties, when it meets no typed-function as a typed-function:
a new name is installed, an existing one is kept, and no other name changes. -/
theorem importValue_silent (typed : TypedEngine) (name : String) (value v : Value)
    (options : Options) (env : Env) (h : Intact env.core.math) (hp : env.pending = [])
    (hs : options.silent = true) (ho : options.override = false)
    (hprep : prepare typed name value options = .ok v)
    (hd : ¬ (isTypedFunction (env.core.math.ns.get name) = true ∧ isTypedFunction v = true)) :
    ∃ env', importValue typed name value options env = ⟨env', .normal⟩ ∧
      env'.pending = [] ∧ Intact env'.core.math ∧
      env'.core.math.ns.get name
        = (if env.core.math.ns.get name = .undefined then v else env.core.math.ns.get name) ∧
      ∀ other, other ≠ name → env'.core.math.ns.get other = env.core.math.ns.get other := by
  have hd' : (isTypedFunction (env.core.math.ns.get name) && isTypedFunction v) = false := by
    simpa using hd
  unfold importValue
  rw [hprep]
  simp only [Env.get_of_no_pending typed .root name env hp, Env.data, hd', ho, Bool.or_false,
    hs, Bool.not_true]
  by_cases hu : env.core.math.ns.get name = .undefined
  · obtain ⟨he, hm⟩ := ne_kernel_of_undefined h name hu
    have hi := installValue_of_no_pending h hp name v he hm
    have hin := Intact.set h v he hm
    refine ⟨env.setMath (installed name v env.core.math), by simp [hu, hi], hp, ⟨?_, ?_⟩, ?_, ?_⟩
    · show (installed name v env.core.math).ns.get "expression" = _
      rw [installed_ns]; exact hin.1
    · show (installed name v env.core.math).ns.get "emit" = _
      rw [installed_ns]; exact hin.2
    · show (installed name v env.core.math).ns.get name = _
      rw [installed_ns, Obj.get_set_self, if_pos hu]
    · intro other hne
      show (installed name v env.core.math).ns.get other = _
      rw [installed_ns, Obj.get_set_of_ne _ _ hne]
  · have hb : (env.core.math.ns.get name == .undefined) = false := by simpa using hu
    exact ⟨env, by simp [hb], hp, h, by rw [if_neg hu], fun _ _ => rfl⟩

/-- A map of supported values as `mathImport` receives it. -/
theorem importProps_values_cons (typed : TypedEngine) (name : String) (value : Value)
    (rest : List (String × Importable)) (options : Options) (env : Env)
    (hsup : isSupportedType value = true) :
    importProps typed ((name, .value value) :: rest) options env
      = (importValue typed name value options env).andThen (importProps typed rest options) := by
  simp [importProps, hsup]

/-- The loop of `mathImport` over a map of supported values, with `silent: true` and
without `override`, in an instance without lazy properties. -/
theorem importProps_silent (typed : TypedEngine) (options : Options)
    (hs : options.silent = true) (ho : options.override = false) :
    ∀ (props : List (String × Value)) (env : Env), Intact env.core.math → env.pending = [] →
      (∀ p ∈ props, isSupportedType p.2 = true) → (props.map Prod.fst).Nodup →
      (∀ p ∈ props, ∃ v, prepare typed p.1 p.2 options = .ok v ∧
        ¬ (isTypedFunction (env.core.math.ns.get p.1) = true ∧ isTypedFunction v = true)) →
      ∃ env', importProps typed (props.map fun p => (p.1, .value p.2)) options env
          = ⟨env', .normal⟩ ∧
        (∀ p ∈ props, ∀ v, prepare typed p.1 p.2 options = .ok v →
          env'.core.math.ns.get p.1
            = (if env.core.math.ns.get p.1 = .undefined then v
                else env.core.math.ns.get p.1)) ∧
        (∀ other, other ∉ props.map Prod.fst →
          env'.core.math.ns.get other = env.core.math.ns.get other)
  | [], env, _, _, _, _, _ => ⟨env, by simp [importProps], by simp, fun _ _ => rfl⟩
  | (name, value) :: rest, env, h, hp, hsup, hnd, hprep => by
    obtain ⟨v, hv, hd⟩ := hprep (name, value) (by simp)
    obtain ⟨env₁, h₁, hp₁, hi₁, hn₁, ho₁⟩ :=
      importValue_silent typed name value v options env h hp hs ho hv hd
    have hnd' : name ∉ rest.map Prod.fst ∧ (rest.map Prod.fst).Nodup := by
      simpa using hnd
    have hrest : ∀ p ∈ rest, p.1 ≠ name := by
      intro p hpm e
      exact hnd'.1 (e ▸ List.mem_map_of_mem Prod.fst hpm)
    obtain ⟨env₂, h₂, hv₂, ho₂⟩ := importProps_silent typed options hs ho rest env₁ hi₁ hp₁
      (fun p hpm => hsup p (by simp [hpm])) hnd'.2
      (fun p hpm => by
        obtain ⟨w, hw, hdw⟩ := hprep p (by simp [hpm])
        exact ⟨w, hw, by rw [ho₁ p.1 (hrest p hpm)]; exact hdw⟩)
    refine ⟨env₂, ?_, ?_, ?_⟩
    · simp only [List.map_cons]
      rw [importProps_values_cons typed name value _ options env (hsup (name, value) (by simp)),
        h₁]
      simpa [EnvOutcome.andThen] using h₂
    · intro p hpm w hw
      rcases List.mem_cons.1 hpm with rfl | hpm
      · rw [ho₂ _ hnd'.1, hn₁]
        rw [hv] at hw; cases hw; rfl
      · rw [hv₂ p hpm w hw, ho₁ p.1 (hrest p hpm)]
    · intro other hne
      have hne' : other ≠ name ∧ other ∉ rest.map Prod.fst := by
        simpa using hne
      rw [ho₂ other hne'.2, ho₁ other hne'.1]

/-- C15 (the code at the failing input). The entry `add` is a typed-function with the
signature `number`; the map `{ add: typed('add', { number: g }) }` holds only a supported
value. Imported with `silent: true` and without `override`, the two tables are merged
outside the test of `silent`, the merge rejects the signature they share, and the import
throws. A duplicate that is no typed-function, `{ config: 1 }`, is skipped without a throw
by the same call. -/
theorem C15_silent_merge_throws :
    Intact envWithAdd.core.math ∧
    isSupportedType (.typed "add" [("number", 22)] .absent) = true ∧
    (mathImport specTyped (.object [("add", .value (.typed "add" [("number", 22)] .absent))])
      { silent := true } envWithAdd).completion
        = .throws (.error "DuplicateSignatureError") ∧
    (mathImport specTyped (.object [("config", .value (.num 1))])
      { silent := true } envWithAdd).completion = .normal ∧
    (mathImport specTyped (.object [("config", .value (.num 1))])
      { silent := true } envWithAdd).env.core.math = envWithAdd.core.math := by
  decide

/-! ## Claims on the conversions, the hooks and the functions on numbers -/

/-- C21. The conversion list built by `createTyped` has at most one edge for every ordered
pair of type names `(from, to)`, and so has the one built by `createTypedLegacy`. -/
theorem C21_conversion_pairs_unique :
    (conversionPairs createTyped_conversions).Nodup ∧
    (conversionPairs createTypedLegacy_conversions).Nodup := by
  constructor <;> decide

/-- C26 (the code at the failing input). Both registries have exactly one edge from `boolean`
to `string`; for `true` it returns the number 1 and for `false` the number 0, which are not
strings. The edge from `number` to `string` next to it returns a string. -/
theorem C26_boolean_to_string_returns_number (lib : TypeLibrary) :
    converted createTyped_conversions lib "boolean" "string" (.boolean true)
      = [.ok (.number 1)] ∧
    converted createTyped_conversions lib "boolean" "string" (.boolean false)
      = [.ok (.number 0)] ∧
    converted createTypedLegacy_conversions lib "boolean" "string" (.boolean true)
      = [.ok (.number 1)] ∧
    converted createTypedLegacy_conversions lib "boolean" "string" (.boolean false)
      = [.ok (.number 0)] ∧
    returnsString (.ok (.number 1)) = false ∧ returnsString (.ok (.number 0)) = false ∧
    converted createTyped_conversions lib "number" "string" (.number 1)
      = [.ok (.string "1")] :=
  ⟨rfl, rfl, rfl, rfl, rfl, rfl, rfl⟩

/-- C25 (the code at the failing input). With a function under `math.fraction` and nothing
under `math.matrix`, the hook `matrix` does not throw its message: it calls `math.matrix`,
which is `undefined`, and the runtime throws a TypeError. With a function under
`math.matrix` and nothing under `math.fraction`, the hook throws
`Cannot convert array into a Matrix: factory function 'math.matrix' missing` although
`math.matrix` is there. The hook `fraction` tests the function it calls. -/
theorem C25_matrix_hook_tests_fraction (apply : Value → List Value → Except JsError Value)
    (valueOf : Value → Value) (text : Value → String) (x : Value) :
    mathWithFraction.ns.get "matrix" = .undefined ∧
    matrixHook apply valueOf mathWithFraction x = .error .runtimeTypeError ∧
    mathWithMatrix.ns.get "matrix" = .func 31 none .absent ∧
    matrixHook apply valueOf mathWithMatrix x
      = .error (.error
          "Cannot convert array into a Matrix: factory function 'math.matrix' missing") ∧
    fractionHook apply valueOf text mathWithFraction x = apply (.func 30 none .absent) [x] ∧
    fractionHook apply valueOf text mathWithMatrix x
      = .error (.error ("Cannot convert value " ++ text x ++
          " into a Fraction: factory function 'math.fraction' missing")) :=
  ⟨by decide, rfl, by decide, rfl, rfl, rfl⟩

/-- An integer is an integer for `isInteger`. -/
theorem isInteger_ofInt (n : Int) : isInteger (.ofInt n) = true := by
  simp [isInteger, JsNumber.ofInt, Nat.mod_one]

/-- The 32-bit pattern that ToInt32 gives an integer is the integer modulo `2 ^ 32`. -/
theorem bits32_toInt32_ofInt (n : Int) :
    JsNumber.bits32 (JsNumber.toInt32 (.ofInt n)) = (n % 2 ^ 32).toNat := by
  have hs : JsNumber.signed (decide (n < 0)) (n.natAbs / 2 ^ 0) = n := by
    unfold JsNumber.signed
    rw [Nat.pow_zero, Nat.div_one]
    by_cases h : n < 0
    · have := Int.ofNat_natAbs_of_nonpos (le_of_lt h)
      simp only [h, decide_True, if_true]
      omega
    · have := Int.natAbs_of_nonneg (not_lt.1 h)
      simp only [h, decide_False]
      exact this
  unfold JsNumber.bits32 JsNumber.toInt32 JsNumber.ofInt
  simp only [hs]
  split <;> congr 1 <;> omega

/-- C24. For all numbers `x` and `y`, the implementation of `bitOr` for `number, number`
throws `Integers expected in function bitOr` if and only if `x` or `y` is not an integer.
For integers it returns the number whose 32-bit two's-complement pattern is the bitwise OR
of the patterns of `x` and `y` (for integers `m` and `n`: of `m` and `n` modulo `2 ^ 32`);
`bitOr(1, 2)` is 3, `bitOr(-1, 2)` is -1, `bitOr(0.5, 2)` and `bitOr(1, NaN)` throw, and
`bitOr(x, y)` is `bitOr(y, x)`. -/
theorem C24_bitOr_number_number (x y : JsNumber) (m n : Int) :
    (bitOr_number_number x y = .error (.error "Integers expected in function bitOr")
      ↔ (isInteger x = false ∨ isInteger y = false)) ∧
    (isInteger x = true → isInteger y = true →
      bitOr_number_number x y
        = .ok (.ofInt (JsNumber.ofBits32
            (JsNumber.bits32 (JsNumber.toInt32 x) ||| JsNumber.bits32 (JsNumber.toInt32 y))))) ∧
    bitOr_number_number (.ofInt m) (.ofInt n)
      = .ok (.ofInt (JsNumber.ofBits32 ((m % 2 ^ 32).toNat ||| (n % 2 ^ 32).toNat))) ∧
    bitOr_number_number 1 2 = .ok 3 ∧
    bitOr_number_number (.ofInt (-1)) 2 = .ok (.ofInt (-1)) ∧
    bitOr_number_number (.finite false 1 1) 2
      = .error (.error "Integers expected in function bitOr") ∧
    bitOr_number_number 1 .nan = .error (.error "Integers expected in function bitOr") ∧
    bitOr_number_number x y = bitOr_number_number y x := by
  refine ⟨?_, ?_, ?_, rfl, rfl, rfl, rfl, ?_⟩
  · unfold bitOr_number_number
    cases hx : isInteger x <;> cases hy : isInteger y <;> simp
  · intro hx hy
    simp [bitOr_number_number, hx, hy, JsNumber.bitwiseOr]
  · simp only [bitOr_number_number, isInteger_ofInt, JsNumber.bitwiseOr, bits32_toInt32_ofInt]
    rfl
  · unfold bitOr_number_number JsNumber.bitwiseOr
    rw [Bool.or_comm, Nat.lor_comm]

/-- The comparisons of a finite number with 1 and with -1, on its exact value. -/
theorem JsNumber.le_one_iff (negative : Bool) (a b : Nat) :
    (JsNumber.finite negative a b).le 1 = decide (JsNumber.signed negative a ≤ 2 ^ b) ∧
    JsNumber.le 1 (.finite negative a b) = decide ((2 : Int) ^ b ≤ JsNumber.signed negative a) ∧
    (JsNumber.finite negative a b).le (.ofInt (-1))
      = decide (JsNumber.signed negative a ≤ -(2 : Int) ^ b) ∧
    JsNumber.le (.ofInt (-1)) (.finite negative a b)
      = decide (-(2 : Int) ^ b ≤ JsNumber.signed negative a) := by
  refine ⟨?_, ?_, ?_, ?_⟩
  · show decide (JsNumber.signed negative a * 2 ^ 0 ≤ JsNumber.signed false 1 * 2 ^ b) = _
    simp [JsNumber.signed]
  · show decide (JsNumber.signed false 1 * 2 ^ b ≤ JsNumber.signed negative a * 2 ^ 0) = _
    simp [JsNumber.signed]
  · show decide (JsNumber.signed negative a * 2 ^ 0 ≤ JsNumber.signed true 1 * 2 ^ b) = _
    simp [JsNumber.signed]
  · show decide (JsNumber.signed true 1 * 2 ^ b ≤ JsNumber.signed negative a * 2 ^ 0) = _
    simp [JsNumber.signed]

/-- C23. With `config.predictable` true, `atanh` and `acoth` return a number for every
number. With `config.predictable` false, `atanh` returns a Complex for every number of
magnitude above 1 (`a / 2 ^ b` with `2 ^ b < a`, and the infinities), and `acoth` returns
a Complex for every number of magnitude below 1. -/
theorem C23_predictable_number_results (fp : FloatOps) (cx : ComplexOps) (x : JsNumber)
    (negative : Bool) (a b : Nat) :
    (∃ r, atanh_number fp cx true x = .number r) ∧
    (∃ r, acoth_number fp cx true x = .number r) ∧
    (2 ^ b < a → ∃ z, atanh_number fp cx false (.finite negative a b) = .complex z) ∧
    (∃ z, atanh_number fp cx false (.infinity negative) = .complex z) ∧
    (a < 2 ^ b → ∃ z, acoth_number fp cx false (.finite negative a b) = .complex z) := by
  obtain ⟨h₁, h₂, h₃, h₄⟩ := JsNumber.le_one_iff negative a b
  have hp : (0 : Int) < 2 ^ b := by positivity
  refine ⟨⟨_, by simp [atanh_number]; rfl⟩, ⟨_, by simp [acoth_number]; rfl⟩, ?_, ?_, ?_⟩
  · intro h
    have h' : (2 : Int) ^ b < a := by exact_mod_cast h
    refine ⟨cx.atanh ⟨.finite negative a b, 0⟩, ?_⟩
    unfold atanh_number
    rw [h₁, h₄]
    cases negative
    · have : ¬ ((a : Int) ≤ 2 ^ b) := by omega
      simp [JsNumber.signed, this]
    · have : ¬ (-(2 : Int) ^ b ≤ -(a : Int)) := by omega
      simp [JsNumber.signed, this]
  · refine ⟨cx.atanh ⟨.infinity negative, 0⟩, ?_⟩
    cases negative <;> rfl
  · intro h
    have h' : (a : Int) < 2 ^ b := by exact_mod_cast h
    refine ⟨cx.acoth ⟨.finite negative a b, 0⟩, ?_⟩
    unfold acoth_number
    rw [h₂, h₃]
    cases negative
    · have u₁ : ¬ ((2 : Int) ^ b ≤ a) := by omega
      have u₂ : ¬ ((a : Int) ≤ -(2 : Int) ^ b) := by omega
      simp [JsNumber.signed, u₁, u₂]
    · have u₁ : ¬ ((2 : Int) ^ b ≤ -(a : Int)) := by omega
      have u₂ : ¬ (-(a : Int) ≤ -(2 : Int) ^ b) := by omega
      simp [JsNumber.signed, u₁, u₂]

/-! ## Decimal digits -/

/-- The digits `toDigitsCore` produces go in front of the ones it was given. -/
theorem toDigitsCore_append (base : Nat) :
    ∀ (fuel n : Nat) (ds : List Char),
      Nat.toDigitsCore base fuel n ds = Nat.toDigitsCore base fuel n [] ++ ds
  | 0, _, _ => rfl
  | fuel + 1, n, ds => by
    simp only [Nat.toDigitsCore]
    split
    · rfl
    · rw [toDigitsCore_append base fuel (n / base) (_ :: ds),
        toDigitsCore_append base fuel (n / base) [_]]
      simp

/-- With more fuel than the number, `toDigitsCore` does not depend on the fuel. -/
theorem toDigitsCore_fuel (base : Nat) (hb : 2 ≤ base) :
    ∀ (f g n : Nat) (ds : List Char), n < f → n < g →
      Nat.toDigitsCore base f n ds = Nat.toDigitsCore base g n ds
  | 0, _, _, _, h, _ => absurd h (Nat.not_lt_zero _)
  | _, 0, _, _, _, h => absurd h (Nat.not_lt_zero _)
  | f + 1, g + 1, n, ds, hf, hg => by
    simp only [Nat.toDigitsCore]
    split
    · rfl
    · rename_i hne
      have hlt : n / base < n := by
        apply Nat.div_lt_self _ hb
        rcases Nat.eq_zero_or_pos n with h0 | h0
        · subst h0; simp at hne
        · exact h0
      exact toDigitsCore_fuel base hb f g (n / base) _ (by omega) (by omega)

/-- The decimal digits of ten times a positive number. -/
theorem toDigits_mul_ten (t : Nat) (ht : 0 < t) :
    Nat.toDigits 10 (t * 10) = Nat.toDigits 10 t ++ ['0'] := by
  unfold Nat.toDigits
  rw [Nat.toDigitsCore]
  have h₁ : t * 10 % 10 = 0 := Nat.mul_mod_left t 10
  have h₂ : t * 10 / 10 = t := Nat.mul_div_cancel t (by decide)
  simp only [h₁, h₂]
  rw [if_neg (by omega), toDigitsCore_append,
    toDigitsCore_fuel 10 (by decide) (t * 10) (t + 1) t [] (by omega) (by omega)]
  rfl

/-- The decimal digits of a positive number times a power of ten. -/
theorem toDigits_mul_pow_ten (s : Nat) (hs : 0 < s) :
    ∀ j : Nat, Nat.toDigits 10 (s * 10 ^ j) = Nat.toDigits 10 s ++ List.replicate j '0'
  | 0 => by simp
  | j + 1 => by
    rw [Nat.pow_succ, ← Nat.mul_assoc, toDigits_mul_ten _ (Nat.mul_pos hs (by positivity)),
      toDigits_mul_pow_ten s hs j, List.append_assoc]
    congr 1
    rw [List.replicate_succ']
/-! ## The string of a safe integer -/

namespace JsNumber

theorem binaryExponentFrom_le (a J : Nat) (ha : a < 2 ^ (J + 1)) :
    ∀ (fuel j : Nat), j ≤ J → binaryExponentFrom a fuel j ≤ J
  | 0, _, h => h
  | fuel + 1, j, h => by
    unfold binaryExponentFrom
    split
    · exact h
    · rename_i hlt
      apply binaryExponentFrom_le a J ha fuel (j + 1)
      rcases Nat.lt_or_ge j J with h' | h'
      · exact h'
      · have : j = J := by omega
        subst this
        exact absurd ha hlt

/-- The unit in the last place of a positive integer below `2 ^ 53` is at most 1. -/
theorem ulpExponent_of_safe (x : Nat) (hx : x < 2 ^ 53) :
    -1074 ≤ ulpExponent x 0 ∧ ulpExponent x 0 ≤ 0 := by
  have h := binaryExponentFrom_le x 52 hx 2100 0 (by omega)
  unfold ulpExponent binaryExponent
  omega

/-- What `exponentUp` finds, for an integer. -/
theorem exponentUp_spec (a : Nat) :
    ∀ (fuel n : Nat), 1 ≤ n → 10 ^ (n - 1) ≤ a → a < 10 ^ (n + fuel) →
      n ≤ exponentUp a 0 fuel n ∧ 10 ^ (exponentUp a 0 fuel n - 1) ≤ a ∧
        a < 10 ^ exponentUp a 0 fuel n
  | 0, n, _, hl, hu => ⟨le_refl _, hl, hu⟩
  | fuel + 1, n, hn, hl, hu => by
    unfold exponentUp
    simp only [Nat.pow_zero, Nat.one_mul]
    split
    · rename_i h
      exact ⟨le_refl _, hl, h⟩
    · rename_i h
      obtain ⟨h₁, h₂, h₃⟩ := exponentUp_spec a fuel (n + 1) (by omega)
        (by simpa using not_lt.1 h) (by rw [show n + 1 + fuel = n + (fuel + 1) by omega]; exact hu)
      exact ⟨by omega, h₂, h₃⟩

/-- The decimal exponent of a positive integer below `2 ^ 53`. -/
theorem decimalExponent_of_safe (x : Nat) (h0 : 0 < x) (hx : x < 2 ^ 53) :
    ∃ N : Nat, decimalExponent x 0 = N ∧ 1 ≤ N ∧ N ≤ 16 ∧ 10 ^ (N - 1) ≤ x ∧ x < 10 ^ N := by
  have hu : x < 10 ^ (1 + 310) := lt_of_lt_of_le hx (by norm_num)
  obtain ⟨h₁, h₂, h₃⟩ := exponentUp_spec x 310 1 (le_refl _) (by simpa using h0) hu
  refine ⟨exponentUp x 0 310 1, ?_, h₁, ?_, h₂, h₃⟩
  · unfold decimalExponent
    rw [if_neg (by simp; omega)]
  · by_contra hc
    have : 10 ^ 16 ≤ 10 ^ (exponentUp x 0 310 1 - 1) :=
      Nat.pow_le_pow_right (by decide) (by omega)
    have : (2 : Nat) ^ 53 < 10 ^ 16 := by norm_num
    omega

/-- On the scale where the unit in the last place is 4, a value that rounds to the double
is within 2 of it. -/
theorem nearest_four (X R : Nat) (normal : Bool) (h : nearest X 4 R normal = true) :
    X ≤ R + 2 ∧ R ≤ X + 2 := by
  unfold nearest at h
  simp only [show (4 : Nat) / 4 = 1 by decide, show (4 : Nat) / 2 = 2 by decide] at h
  split at h <;> split at h <;> simp at h <;> omega

/-- On that scale the double rounds to itself. -/
theorem nearest_self (X : Nat) (hX : 0 < X) (normal : Bool) : nearest X 4 X normal = true := by
  unfold nearest
  simp only [show (4 : Nat) / 4 = 1 by decide, show (4 : Nat) / 2 = 2 by decide]
  split <;> split <;> simp <;> omega

/-- For a positive integer below `2 ^ 53` and an exponent that is not negative, `roundsTo`
is `nearest` on the scale `2 ^ B` on which the unit in the last place is 4. -/
theorem roundsTo_of_safe (x : Nat) (hx : x < 2 ^ 53) (s p : Nat) :
    ∃ B : Nat, 2 ≤ B ∧ ∃ normal,
      roundsTo x 0 s (p : Int) = nearest (x * 2 ^ B) 4 (s * 10 ^ p * 2 ^ B) normal := by
  obtain ⟨h₁, h₂⟩ := ulpExponent_of_safe x hx
  refine ⟨(2 - ulpExponent x 0).toNat, by omega, decide (-1074 < ulpExponent x 0), ?_⟩
  unfold roundsTo
  have hB : max 0 (2 - ulpExponent x 0).toNat = (2 - ulpExponent x 0).toNat := by omega
  have hP : (-(p : Int)).toNat = 0 := by omega
  have hG : (((2 - ulpExponent x 0).toNat : Int) + ulpExponent x 0).toNat = 2 := by omega
  have hp : ((p : Int) + ((0 : Nat) : Int)).toNat = p := by omega
  simp only [hB, hP, hG, hp, Nat.sub_zero, Nat.pow_zero, Nat.mul_one]
  rfl

/-- A decimal with an exponent that is not negative rounds to a positive integer below
`2 ^ 53` only when it is that integer. -/
theorem roundsTo_iff_of_safe (x : Nat) (h0 : 0 < x) (hx : x < 2 ^ 53) (s p : Nat) :
    roundsTo x 0 s (p : Int) = true ↔ s * 10 ^ p = x := by
  obtain ⟨B, hB, normal, h⟩ := roundsTo_of_safe x hx s p
  have h4 : 4 ≤ 2 ^ B := by
    calc 4 = 2 ^ 2 := by norm_num
      _ ≤ 2 ^ B := Nat.pow_le_pow_right (by decide) hB
  rw [h]
  constructor
  · intro hn
    obtain ⟨u₁, u₂⟩ := nearest_four _ _ _ hn
    rcases Nat.lt_trichotomy (s * 10 ^ p) x with hlt | heq | hgt
    · have := Nat.mul_le_mul_right (2 ^ B) (Nat.succ_le_of_lt hlt)
      rw [Nat.succ_mul] at this
      omega
    · exact heq
    · have := Nat.mul_le_mul_right (2 ^ B) (Nat.succ_le_of_lt hgt)
      rw [Nat.succ_mul] at this
      omega
  · intro he
    rw [he]
    exact nearest_self _ (Nat.mul_pos h0 (by positivity)) _

end JsNumber
namespace JsNumber

/-- The decimal with `k` digits for a positive integer below `2 ^ 53`, `k` being at most the
number `N` of its digits: the integer without its last `N - k` digits, provided these are
zeros. -/
theorem closestDecimal_of_safe (x : Nat) (h0 : 0 < x) (hx : x < 2 ^ 53) (N k : Nat)
    (hk : k ≤ N) :
    closestDecimal x 0 (N : Int) k
      = if (10 ^ (k - 1) ≤ x / 10 ^ (N - k) ∧ x / 10 ^ (N - k) < 10 ^ k) ∧
          x / 10 ^ (N - k) * 10 ^ (N - k) = x then
          some (x / 10 ^ (N - k), (N : Int))
        else none := by
  have hp : (N : Int) - (k : Int) = ((N - k : Nat) : Int) := by omega
  have hpos : 0 < 10 ^ (N - k) := by positivity
  have hL := roundsTo_iff_of_safe x h0 hx (x / 10 ^ (N - k)) (N - k)
  have hH : roundsTo x 0 (x / 10 ^ (N - k) + 1) ((N - k : Nat) : Int) = false := by
    rw [Bool.eq_false_iff]
    intro h
    have h' := (roundsTo_iff_of_safe x h0 hx _ _).1 h
    have := Nat.lt_succ_iff.1 (Nat.lt_succ_of_le (Nat.div_mul_le_self x (10 ^ (N - k))))
    have h₂ := Nat.div_add_mod x (10 ^ (N - k))
    have h₃ := Nat.mod_lt x hpos
    rw [Nat.add_mul, Nat.one_mul, Nat.mul_comm] at h'
    omega
  unfold closestDecimal
  have hP : (-((N - k : Nat) : Int)).toNat = 0 := by omega
  have hq : (((N - k : Nat) : Int) + ((0 : Nat) : Int)).toNat = N - k := by omega
  simp only [hp, hP, hq, Nat.pow_zero, Nat.mul_one, hH, Bool.and_false]
  by_cases hc : (10 ^ (k - 1) ≤ x / 10 ^ (N - k) ∧ x / 10 ^ (N - k) < 10 ^ k) ∧
      x / 10 ^ (N - k) * 10 ^ (N - k) = x
  · rw [if_pos hc]
    have : roundsTo x 0 (x / 10 ^ (N - k)) ((N - k : Nat) : Int) = true := hL.2 hc.2
    simp [hc.1, this]
  · rw [if_neg hc]
    by_cases hr : 10 ^ (k - 1) ≤ x / 10 ^ (N - k) ∧ x / 10 ^ (N - k) < 10 ^ k
    · have : roundsTo x 0 (x / 10 ^ (N - k)) ((N - k : Nat) : Int) = false := by
        rw [Bool.eq_false_iff]
        exact fun h => hc ⟨hr, hL.1 h⟩
      simp [this]
    · simp [hr]

/-- The search for the digits of a positive integer `x` below `2 ^ 53` that has `N` digits
ends with digits `s`, `k` of them, such that `x` is `s` followed by `N - k` zeros. -/
theorem shortestFrom_of_safe (x : Nat) (h0 : 0 < x) (hx : x < 2 ^ 53) (N : Nat)
    (hl : 10 ^ (N - 1) ≤ x) (hu : x < 10 ^ N) :
    ∀ (fuel k : Nat), 1 ≤ k → k ≤ N → N - k < fuel →
      ∃ s k', shortestFrom x 0 (N : Int) fuel k = (s, k', (N : Int)) ∧ k' ≤ N ∧
        s * 10 ^ (N - k') = x
  | 0, _, _, _, h => absurd h (Nat.not_lt_zero _)
  | fuel + 1, k, h1, hk, hf => by
    unfold shortestFrom
    rw [closestDecimal_of_safe x h0 hx N k hk]
    by_cases hc : (10 ^ (k - 1) ≤ x / 10 ^ (N - k) ∧ x / 10 ^ (N - k) < 10 ^ k) ∧
        x / 10 ^ (N - k) * 10 ^ (N - k) = x
    · rw [if_pos hc]
      exact ⟨_, k, rfl, hk, hc.2⟩
    · rw [if_neg hc]
      have hne : k ≠ N := by
        rintro rfl
        apply hc
        simp only [Nat.sub_self, Nat.pow_zero, Nat.div_one, Nat.mul_one]
        exact ⟨⟨hl, hu⟩, trivial⟩
      exact shortestFrom_of_safe x h0 hx N hl hu fuel (k + 1) (by omega) (by omega) (by omega)

/-- The text for digits followed by zeros, up to 21 digits in all. -/
theorem render_integer (s k N : Nat) (hs : 0 < s) (hk : k ≤ N) (hN : N ≤ 21) :
    render s k (N : Int) = Nat.repr (s * 10 ^ (N - k)) := by
  unfold render
  have h : ((k : Int) ≤ (N : Int) ∧ (N : Int) ≤ 21) := by omega
  have hq : ((N : Int) - (k : Int)).toNat = N - k := by omega
  simp only [h, and_self, if_true, hq]
  rw [Nat.repr, toDigits_mul_pow_ten s hs]
  rfl

/-- The string of a positive or negative integer of magnitude below `2 ^ 53` is its sign and
the decimal digits of its magnitude. -/
theorem toText_of_safe (negative : Bool) (x : Nat) (h0 : 0 < x) (hx : x < 2 ^ 53) :
    toText (.finite negative x 0) = (if negative then "-" else "") ++ Nat.repr x := by
  obtain ⟨N, hN, h1, h16, hl, hu⟩ := decimalExponent_of_safe x h0 hx
  obtain ⟨s, k, hs, hk, he⟩ :=
    shortestFrom_of_safe x h0 hx N hl hu 17 1 (le_refl _) h1 (by omega)
  have hpos : 0 < s := by
    apply Nat.pos_of_ne_zero
    rintro rfl
    simp at he
    omega
  show (if x = 0 then "0"
    else (if negative = true then "-" else "") ++
      render (shortest x 0).1 (shortest x 0).2.1 (shortest x 0).2.2) = _
  rw [if_neg (Nat.pos_iff_ne_zero.1 h0)]
  simp only [shortest, hN, hs]
  rw [render_integer s k N hpos hk (by omega), he]

/-- The string of an integer of magnitude below `2 ^ 53` is its decimal text. -/
theorem toText_ofInt (n : Int) (h : n.natAbs < 2 ^ 53) : toText (.ofInt n) = toString n := by
  cases n with
  | ofNat m =>
    rcases Nat.eq_zero_or_pos m with h0 | h0
    · subst h0; rfl
    · have hd : decide (Int.ofNat m < 0) = false := by simp
      show toText (.finite (decide (Int.ofNat m < 0)) m 0) = Nat.repr m
      rw [hd, toText_of_safe false m h0 (by simpa using h)]
      simp
  | negSucc m =>
    have hd : decide (Int.negSucc m < 0) = true := by simp [Int.negSucc_lt_zero]
    show toText (.finite (decide (Int.negSucc m < 0)) (m + 1) 0) = "-" ++ Nat.repr (m + 1)
    rw [hd, toText_of_safe true (m + 1) (by omega) (by simpa using h)]
    rfl

end JsNumber
/-- C22 (amended). The edge from `number` to `string`, the only one of that pair in either
registry, returns the string form of its argument: for every integer `n` of magnitude below
`2 ^ 53` it returns the decimal text of `n`. -/
theorem C22_number_to_string (lib : TypeLibrary) (n : Int) (h : n.natAbs < 2 ^ 53) :
    converted createTyped_conversions lib "number" "string" (.number (.ofInt n))
      = [.ok (.string (toString n))] ∧
    converted createTypedLegacy_conversions lib "number" "string" (.number (.ofInt n))
      = [.ok (.string (toString n))] := by
  have ht : convert_number_string lib (.number (.ofInt n)) = .ok (.string (toString n)) := by
    show Except.ok (Datum.string ((JsNumber.ofInt n).toText ++ "")) = _
    rw [JsNumber.toText_ofInt n h, String.append_empty]
  constructor
  · show [convert_number_string lib (.number (.ofInt n))] = _
    rw [ht]
  · show [convert_number_string lib (.number (.ofInt n))] = _
    rw [ht]

/-- C22 (witness): for the number 5 the edge returns the string `5`, and for -120 the
string `-120`. -/
theorem C22_number_to_string_witness :
    (5 : Int).natAbs < 2 ^ 53 ∧
    converted createTyped_conversions exampleLibrary "number" "string" (.number (.ofInt 5))
      = [.ok (.string "5")] ∧
    converted createTyped_conversions exampleLibrary "number" "string" (.number (.ofInt (-120)))
      = [.ok (.string "-120")] :=
  ⟨by decide, (C22_number_to_string exampleLibrary 5 (by decide)).1,
    (C22_number_to_string exampleLibrary (-120) (by decide)).1⟩

/-- C22 (counterexample). The integers `10 ^ 21` and `2 ^ 64` are numbers. For `10 ^ 21` the
edge returns `1e+21`, and for `2 ^ 64` it returns `18446744073709552000`; their decimal
texts are `1000000000000000000000` and `18446744073709551616`. -/
theorem C22_counterexample :
    converted createTyped_conversions exampleLibrary "number" "string"
      (.number (.ofInt (10 ^ 21))) = [.ok (.string "1e+21")] ∧
    toString ((10 : Int) ^ 21) = "1000000000000000000000" ∧
    converted createTyped_conversions exampleLibrary "number" "string"
      (.number (.ofInt (2 ^ 64))) = [.ok (.string "18446744073709552000")] ∧
    toString ((2 : Int) ^ 64) = "18446744073709551616" :=
  ⟨rfl, by decide, rfl, by decide⟩

end Mathjs
